import Mathlib

/-! Deployadactyl: precheck, per-foundation push, orchestration, configuration loading
and artifact extraction.

A shallow embedding of `controller/deployer/prechecker/prechecker.go`, of
`artifetcher/extractor/extractor.go`, of the per-foundation `Pusher`, of the blue-green
orchestrator and of the normalization done when the configuration is loaded, with the
properties of the design document stated over it.

Effects are made explicit.  A `World` records, in call order, the HTTP GETs issued and
the events handed to `EventManager.Emit`; what the network and the event manager answer
is given by oracles indexed by the number of earlier calls, so any deterministic
environment is covered.
-/

namespace Deployadactyl

/-! ## Data model -/

/-- Modelled from the spec: the declaration of `config.Environment` is not among the
sources; the fields are those used by `config_test.go` (`Name`, `Foundations`, `Domain`,
`SkipSSL`, `Instances`) and listed in section 3 of the design document. -/
structure Environment where
  Name : String
  Domain : String
  Foundations : List String
  SkipSSL : Bool
  Instances : Nat
deriving DecidableEq, Repr

/-- The struct `structs.PrecheckerEventData`. -/
structure PrecheckerEventData where
  Environment : Environment
  Description : String
deriving DecidableEq, Repr

/-- Modelled from the spec: the declaration of `structs.Event` is not among the sources;
`prechecker.go` builds it as `S.Event{Type: ..., Data: ...}`.  The field `Type` is spelled
`Type_` here, and `Data` (an `interface{}` in Go) holds the only payload the prechecker
ever stores in it. -/
structure Event where
  Type_ : String
  Data : PrecheckerEventData
deriving DecidableEq, Repr

/-- The struct `tls.Config`, restricted to the field `prechecker.go` sets. -/
structure TLSConfig where
  InsecureSkipVerify : Bool
deriving DecidableEq, Repr

/-- The struct `http.Transport`, restricted to the fields `prechecker.go` sets; the
timeout is a `time.Duration`, a count of nanoseconds. -/
structure Transport where
  TLSClientConfig : TLSConfig
  ResponseHeaderTimeout : Int
deriving DecidableEq, Repr

/-- The struct `http.Client`, restricted to the field `prechecker.go` sets. -/
structure Client where
  Transport : Transport
deriving DecidableEq, Repr

/-- The constant `time.Second`, in nanoseconds. -/
def Second : Int := 1000000000

/-- The constant `http.StatusOK`. -/
def StatusOK : Int := 200

/-- The part of `http.Response` that `AssertAllFoundationsUp` reads. -/
structure Response where
  Status : String
  StatusCode : Int
deriving DecidableEq, Repr

/-- The errors `AssertAllFoundationsUp` returns.  The transport error carried by
`InvalidGetRequestError` is represented by its text. -/
inductive PrecheckError where
  | NoFoundationsConfiguredError : PrecheckError
  | InvalidGetRequestError (FoundationURL : String) (Err : String) : PrecheckError
  | FoundationUnavailableError (FoundationURL : String) (Status : String) : PrecheckError
deriving DecidableEq, Repr

/-- One GET as issued: the client it was sent with and the URL. -/
structure Request where
  client : Client
  url : String
deriving DecidableEq, Repr

/-- The effects of a run, oldest first: the GETs issued, the events passed to
`EventManager.Emit`, and the number of response bodies closed by the deferred
`resp.Body.Close()` calls. -/
structure World where
  requests : List Request
  events : List Event
  closedBodies : Nat
deriving DecidableEq, Repr

/-- The world before anything happened. -/
def World.init : World := { requests := [], events := [], closedBodies := 0 }

/-- The network: the outcome `(resp, err)` of the GET issued after `n` earlier GETs, to
the given URL; `Except.error` is a transport-level failure with its text. -/
abbrev Http := Nat → String → Except String Response

/-- The interface `interfaces.EventManager`, as far as the prechecker uses it: the error
(`none` for `nil`) returned by the call of `Emit` made after `n` earlier ones. -/
structure EventManager where
  EmitReturns : Nat → Event → Option String

/-- The struct `Prechecker`. -/
structure Prechecker where
  EventManager : EventManager

/-! ## Effects -/

/-- The call `p.EventManager.Emit(event)`: the event is recorded, the manager's error is
the result. -/
def EventManager.Emit (em : EventManager) (w : World) (event : Event) : Option String × World :=
  (em.EmitReturns w.events.length event, { w with events := w.events ++ [event] })

/-- The call `client.Get(url)`. -/
def Client.Get (http : Http) (client : Client) (w : World) (url : String) :
    Except String Response × World :=
  (http w.requests.length url, { w with requests := w.requests ++ [⟨client, url⟩] })

/-- The deferred `resp.Body.Close()` calls, run when the function returns: one for every
response received. -/
def runDeferred (deferred : Nat) (w : World) : World :=
  { w with closedBodies := w.closedBodies + deferred }

/-! ## `Prechecker.AssertAllFoundationsUp` -/

/-- The client built at lines 32-37 of `prechecker.go`. -/
def insecureClient (_environment : Environment) : Client :=
  { Transport :=
      { TLSClientConfig := { InsecureSkipVerify := true }
        ResponseHeaderTimeout := 15 * Second } }

/-- The loop at lines 39-55 of `prechecker.go`, over the foundations still to probe.
`errText` is the method `Error()` of the error types, whose declarations are not among
the sources; `deferred` counts the pending `resp.Body.Close()` calls. -/
def probeFoundations (p : Prechecker) (http : Http) (errText : PrecheckError → String)
    (client : Client) (precheckerEventData : PrecheckerEventData) :
    List String → Nat → World → Option PrecheckError × World
  | [], deferred, w => (none, runDeferred deferred w)
  | foundationURL :: rest, deferred, w =>
    match Client.Get http client w (foundationURL ++ "/v2/info") with
    | (Except.error err, w1) =>
      (some (PrecheckError.InvalidGetRequestError foundationURL err), runDeferred deferred w1)
    | (Except.ok resp, w1) =>
      if resp.StatusCode ≠ StatusOK then
        let err := PrecheckError.FoundationUnavailableError foundationURL resp.Status
        let data : PrecheckerEventData :=
          { precheckerEventData with Description := errText err }
        let w2 := (p.EventManager.Emit w1
          { Type_ := "validate.foundationsUnavailable", Data := data }).2
        (some err, runDeferred (deferred + 1) w2)
      else
        probeFoundations p http errText client precheckerEventData rest (deferred + 1) w1

/-- The method `Prechecker.AssertAllFoundationsUp`: the returned error (`none` for `nil`)
and the world after the call. -/
def AssertAllFoundationsUp (p : Prechecker) (http : Http) (errText : PrecheckError → String)
    (environment : Environment) (w : World) : Option PrecheckError × World :=
  let precheckerEventData : PrecheckerEventData :=
    { Environment := environment, Description := "" }
  if environment.Foundations.length = 0 then
    let data : PrecheckerEventData :=
      { precheckerEventData with Description := "no foundations configured" }
    let w1 := (p.EventManager.Emit w
      { Type_ := "validate.foundationsUnavailable", Data := data }).2
    (some PrecheckError.NoFoundationsConfiguredError, w1)
  else
    probeFoundations p http errText (insecureClient environment) precheckerEventData
      environment.Foundations 0 w

/-! ## The per-foundation `Pusher` -/

/-- The struct `structs.DeploymentInfo`.  The two maps are association lists; the values
of `Data` (`interface{}` in Go) are kept as text. -/
structure DeploymentInfo where
  ArtifactURL : String
  Manifest : String
  Username : String
  Password : String
  Environment : String
  Org : String
  Space : String
  AppName : String
  UUID : String
  SkipSSL : Bool
  Instances : Nat
  Domain : String
  AppPath : String
  EnvironmentVariables : List (String × String)
  HealthCheckEndpoint : String
  Data : List (String × String)
deriving DecidableEq, Repr

/-- Modelled from the spec: the interface `Courier` is not among the sources; these are
its methods as listed in section 6 of the design document, each with the arguments it is
called with. -/
inductive CourierCall where
  | Login (foundationURL username password org space : String) (skipSSL : Bool) : CourierCall
  | Push (appName appPath : String) (instances : Nat) : CourierCall
  | Rename (oldName newName : String) : CourierCall
  | Delete (appName : String) : CourierCall
  | MapRoute (appName domain : String) : CourierCall
  | Logs (appName : String) : CourierCall
  | Exists (appName : String) : CourierCall
  | CleanUp : CourierCall
deriving DecidableEq, Repr

/-- Modelled from the spec: a `Courier` (section 6 of the design document), as an oracle.
Given the calls already made on it and the call being made, it answers with the output
and the error (`none` for `nil`), so the answer may depend on everything done before. -/
structure Courier where
  answer : List CourierCall → CourierCall → String × Option String

/-- The effects of one `Pusher` on its foundation, oldest first: the calls made on the
Courier, the bytes written to the response stream, and the messages handed to the
logger. -/
structure Session where
  calls : List CourierCall
  response : String
  log : List String
deriving DecidableEq, Repr

/-- The session before anything happened. -/
def Session.init : Session := { calls := [], response := "", log := [] }

/-- One call on the Courier: the call is recorded, the Courier's answer is the result. -/
def Courier.call (c : Courier) (s : Session) (k : CourierCall) :
    (String × Option String) × Session :=
  (c.answer s.calls k, { s with calls := s.calls ++ [k] })

/-- A write of Courier output to the response stream. -/
def Session.write (s : Session) (output : String) : Session :=
  { s with response := s.response ++ output }

/-- One message handed to the logger. -/
def Session.logf (s : Session) (message : String) : Session :=
  { s with log := s.log ++ [message] }

/-- Whether a call is a `Rename`. -/
def CourierCall.isRename : CourierCall → Bool
  | CourierCall.Rename _ _ => true
  | _ => false

/-- Whether a call is a `Push`. -/
def CourierCall.isPush : CourierCall → Bool
  | CourierCall.Push _ _ _ => true
  | _ => false

/-- Whether a call is a `MapRoute`. -/
def CourierCall.isMapRoute : CourierCall → Bool
  | CourierCall.MapRoute _ _ => true
  | _ => false

/-- Modelled from the spec: `pusher.go` is not among the sources, only `pusher_test.go`.
This is the second half of `Pusher.Push` as section 4.3 of the design document describes
it: push the bits with the configured instance count, then map the route; every Courier
output is appended to the response stream; after a failed push or a failed route mapping
the platform logs are fetched and appended.  The log messages and the error texts are
the ones `pusher_test.go` asserts: `"<push error>: cannot get Cloud Foundry logs: <log
error>"` (line 245) when push and log retrieval both fail, and `"cannot get Cloud Foundry
logs: <log error>"` (line 269) when route mapping and log retrieval both fail. -/
def Pusher.pushAndMapRoute (courier : Courier) (appPath : String)
    (deploymentInfo : DeploymentInfo) (s : Session) : Option String × Session :=
  let s1 := (s.logf ("pushing app " ++ deploymentInfo.AppName ++ " to " ++ deploymentInfo.Domain)).logf
    ("tempdir for app " ++ deploymentInfo.AppName ++ ": " ++ appPath)
  match courier.call s1
      (CourierCall.Push deploymentInfo.AppName appPath deploymentInfo.Instances) with
  | ((pushOutput, some err), s2) =>
    match courier.call (s2.write pushOutput) (CourierCall.Logs deploymentInfo.AppName) with
    | ((logs, some logsErr), s3) =>
      (some (err ++ ": cannot get Cloud Foundry logs: " ++ logsErr), s3.write logs)
    | ((logs, none), s3) => (some err, s3.write logs)
  | ((pushOutput, none), s2) =>
    let s3 := (s2.write pushOutput).logf
      ("mapping route for " ++ deploymentInfo.AppName ++ " to " ++ deploymentInfo.Domain)
    match courier.call s3
        (CourierCall.MapRoute deploymentInfo.AppName deploymentInfo.Domain) with
    | ((mapRouteOutput, some err), s4) =>
      match courier.call (s4.write mapRouteOutput)
          (CourierCall.Logs deploymentInfo.AppName) with
      | ((logs, some logsErr), s5) =>
        (some ("cannot get Cloud Foundry logs: " ++ logsErr), s5.write logs)
      | ((logs, none), s5) => (some err, s5.write logs)
    | ((mapRouteOutput, none), s4) => (none, s4.write mapRouteOutput)

/-- Modelled from the spec: `pusher.go` is not among the sources, only `pusher_test.go`.
This is `Pusher.Push` as section 4.3 of the design document describes it: when the app
exists it is first renamed to `appName + "-venerable"`, and a rename failure aborts with
an error built from the rename output and the cause (`"rename failed: bork"` at line 137
of `pusher_test.go`); otherwise `"new app detected"` is logged; then the bits are pushed
and the route is mapped.  The result is the returned error (`none` for `nil`) and the
session after the call. -/
def Pusher.Push (courier : Courier) (appPath : String) (appExists : Bool)
    (deploymentInfo : DeploymentInfo) (s : Session) : Option String × Session :=
  if appExists then
    match courier.call s (CourierCall.Rename deploymentInfo.AppName
        (deploymentInfo.AppName ++ "-venerable")) with
    | ((renameOutput, some err), s1) =>
      (some (renameOutput ++ ": " ++ err), s1.write renameOutput)
    | ((renameOutput, none), s1) =>
      Pusher.pushAndMapRoute courier appPath deploymentInfo
        ((s1.write renameOutput).logf ("renamed app from " ++ deploymentInfo.AppName ++ " to " ++
          (deploymentInfo.AppName ++ "-venerable")))
  else
    Pusher.pushAndMapRoute courier appPath deploymentInfo (s.logf "new app detected")

/-- The calls made on the Courier when `Pusher.Push` comes to push the bits: the calls of
the session so far and, when the app exists, the rename. -/
def callsBeforePush (appExists : Bool) (deploymentInfo : DeploymentInfo) (s : Session) :
    List CourierCall :=
  if appExists then
    s.calls ++ [CourierCall.Rename deploymentInfo.AppName (deploymentInfo.AppName ++ "-venerable")]
  else s.calls

/-- The session in which `Pusher.Push` comes to push the bits, provided the rename (if
any) succeeded: the rename is recorded, its output written and the step logged, or the
new app is reported. -/
def sessionBeforePush (courier : Courier) (appExists : Bool) (deploymentInfo : DeploymentInfo)
    (s : Session) : Session :=
  if appExists then
    { calls := s.calls ++
        [CourierCall.Rename deploymentInfo.AppName (deploymentInfo.AppName ++ "-venerable")],
      response := s.response ++ (courier.answer s.calls (CourierCall.Rename
        deploymentInfo.AppName (deploymentInfo.AppName ++ "-venerable"))).1,
      log := s.log ++ ["renamed app from " ++ deploymentInfo.AppName ++ " to " ++
        (deploymentInfo.AppName ++ "-venerable")] }
  else { s with log := s.log ++ ["new app detected"] }

/-- Modelled from the spec: `pusher.go` is not among the sources, only `pusher_test.go`.
This is `Pusher.Login` as section 4.3 of the design document describes it: the Courier
is given the foundation URL and the credentials, org, space and skip-SSL flag of the
deployment; its output is written to the response stream whether the login succeeds or
not; a failure is returned as `"cannot login to <foundationURL>: <cause>"` (line 106 of
`pusher_test.go`). -/
def Pusher.Login (courier : Courier) (foundationURL : String)
    (deploymentInfo : DeploymentInfo) (s : Session) : Option String × Session :=
  match courier.call s (CourierCall.Login foundationURL deploymentInfo.Username
      deploymentInfo.Password deploymentInfo.Org deploymentInfo.Space
      deploymentInfo.SkipSSL) with
  | ((loginOutput, some err), s1) =>
    (some ("cannot login to " ++ foundationURL ++ ": " ++ err), s1.write loginOutput)
  | ((loginOutput, none), s1) => (none, s1.write loginOutput)

/-- Modelled from the spec: `pusher.go` is not among the sources, only `pusher_test.go`.
This is `Pusher.Rollback` as section 4.3 of the design document describes it: meaningful
only when a rename occurred (a no-op otherwise); the pushed application is deleted, then
the venerable copy is renamed back, in that order; a failed delete does not stop the
rename, and failures are surfaced in the returned error.  The log messages are the ones
`pusher_test.go` asserts (lines 208-210).  The design document does not say how two
failures are put into one error, so that is the parameter `joinErrors`. -/
def Pusher.Rollback (courier : Courier) (joinErrors : String → String → String)
    (appExisted : Bool) (deploymentInfo : DeploymentInfo) (s : Session) :
    Option String × Session :=
  if appExisted then
    let s0 := s.logf ("rolling back deploy of " ++ deploymentInfo.AppName)
    match courier.call s0 (CourierCall.Delete deploymentInfo.AppName) with
    | ((_, deleteErr), s1) =>
      let s2 := match deleteErr with
        | none => s1.logf ("deleted " ++ deploymentInfo.AppName)
        | some _ => s1
      match courier.call s2 (CourierCall.Rename (deploymentInfo.AppName ++ "-venerable")
          deploymentInfo.AppName) with
      | ((_, some renameErr), s3) =>
        match deleteErr with
        | none => (some renameErr, s3)
        | some err => (some (joinErrors err renameErr), s3)
      | ((_, none), s3) =>
        (deleteErr, s3.logf ("renamed app from " ++ (deploymentInfo.AppName ++ "-venerable") ++
          " to " ++ deploymentInfo.AppName))
  else (none, s)

/-! ## Configuration loading -/

/-- One entry of the `environments` list of the configuration file, as written: the keys
`name`, `domain`, `foundations`, `skip_ssl` and `instances` of `config_test.go`; a key
that is not given is `none`. -/
structure EnvironmentYaml where
  name : Option String
  domain : Option String
  foundations : Option (List String)
  skip_ssl : Option Bool
  instances : Option Nat
deriving DecidableEq, Repr

/-- Modelled from the spec: `config.go` is not among the sources, only `config_test.go`.
The normalization of the instance count at load time (sections 3 and 6 of the design
document): 0 becomes 1, a positive count passes through unchanged. -/
def normalizeInstances (instances : Nat) : Nat :=
  if instances = 0 then 1 else instances

/-- Modelled from the spec: `config.go` is not among the sources, only `config_test.go`.
The environment loaded from one entry of the configuration file: a key that is not given
has the zero value of its type, and the instance count is normalized.  The check of the
required keys (`MissingParameterError` in `config_test.go`) is not part of this
definition. -/
def loadEnvironment (y : EnvironmentYaml) : Environment :=
  { Name := y.name.getD "",
    Domain := y.domain.getD "",
    Foundations := y.foundations.getD [],
    SkipSSL := y.skip_ssl.getD false,
    Instances := normalizeInstances (y.instances.getD 0) }

/-! ## The blue-green orchestrator -/

/-- Modelled from the spec: the interface `Pusher` is not among the sources; these are the
operations of section 4.3 of the design document, each with the arguments the
orchestrator passes (the deployment is the same for all of them and is left out). -/
inductive PusherOp where
  | Login (foundationURL : String) : PusherOp
  | Exists (appName : String) : PusherOp
  | Push (appPath : String) (appExists : Bool) : PusherOp
  | Rollback (appExisted : Bool) : PusherOp
  | DeleteVenerable (foundationURL : String) : PusherOp
  | CleanUp : PusherOp
deriving DecidableEq, Repr

/-- Whether an operation is a `DeleteVenerable`. -/
def PusherOp.isDeleteVenerable : PusherOp → Bool
  | PusherOp.DeleteVenerable _ => true
  | _ => false

/-- Whether an operation is a `CleanUp`. -/
def PusherOp.isCleanUp : PusherOp → Bool
  | PusherOp.CleanUp => true
  | _ => false

/-- Whether an operation is a `Rollback`. -/
def PusherOp.isRollback : PusherOp → Bool
  | PusherOp.Rollback _ => true
  | _ => false

/-- Modelled from the spec: the Pusher that `PusherCreator.CreatePusher` binds to one
foundation, as an oracle: what each of its operations answers (`none` for a `nil`
error).  The orchestrator calls every operation at most once on a Pusher, so one answer
per operation covers every deterministic Pusher. -/
structure BoundPusher where
  Login : Option String
  Exists : Bool
  Push : Option String
  Rollback : Option String
  DeleteVenerable : Option String
  CleanUp : Option String
deriving DecidableEq, Repr

/-- One call on a Pusher together with the error it returned (`none` for `nil`; `Exists`
returns no error, its answer is the `appExists` argument of the `Push` that follows). -/
abbrev PusherCall := PusherOp × Option String

/-- The outcome of the task of one foundation at the barrier: the calls it made, in
order, each with its answer, the error it ended with, and whether it had begun a rename.
The orchestrator sees of `Push` only the error it returns, not the step that failed, so a
foundation has begun a rename when its task called `Push` for an app that exists. -/
structure TaskResult where
  calls : List PusherCall
  err : Option String
  renamed : Bool
deriving DecidableEq, Repr

/-- Modelled from the spec: `bluegreen.go` is not among the sources.  The task the
orchestrator launches for one foundation (section 4.4 of the design document): Login,
then Exists, then Push, strictly in that order; a failed login ends the task. -/
def foundationTask (pusher : BoundPusher) (foundationURL appPath : String)
    (deploymentInfo : DeploymentInfo) : TaskResult :=
  match pusher.Login with
  | some err =>
    { calls := [(PusherOp.Login foundationURL, some err)], err := some err, renamed := false }
  | none =>
    { calls := [(PusherOp.Login foundationURL, none),
        (PusherOp.Exists deploymentInfo.AppName, none),
        (PusherOp.Push appPath pusher.Exists, pusher.Push)],
      err := pusher.Push,
      renamed := pusher.Exists }

/-- What was done on one foundation during a deployment: the calls made on its Pusher, in
order, each with the error it returned.  Nothing is recorded about the order of calls on
different foundations, which run concurrently. -/
structure FoundationRun where
  foundationURL : String
  calls : List PusherCall
deriving DecidableEq, Repr

/-- The operations called on one foundation, without their answers. -/
def FoundationRun.ops (run : FoundationRun) : List PusherOp :=
  run.calls.map Prod.fst

/-- Modelled from the spec: the commit branch of section 4.4 of the design document for
one foundation: after its task, DeleteVenerable, then CleanUp. -/
def commitRun (appPath : String) (deploymentInfo : DeploymentInfo)
    (fp : String × BoundPusher) : FoundationRun :=
  { foundationURL := fp.1,
    calls := (foundationTask fp.2 fp.1 appPath deploymentInfo).calls ++
      [(PusherOp.DeleteVenerable fp.1, fp.2.DeleteVenerable),
       (PusherOp.CleanUp, fp.2.CleanUp)] }

/-- Modelled from the spec: the compensation branch of section 4.4 of the design document
for one foundation: after its task, Rollback if it had begun a rename, then CleanUp. -/
def rollbackRun (appPath : String) (deploymentInfo : DeploymentInfo)
    (fp : String × BoundPusher) : FoundationRun :=
  { foundationURL := fp.1,
    calls := (foundationTask fp.2 fp.1 appPath deploymentInfo).calls ++
      (if (foundationTask fp.2 fp.1 appPath deploymentInfo).renamed
        then [(PusherOp.Rollback true, fp.2.Rollback)] else []) ++
      [(PusherOp.CleanUp, fp.2.CleanUp)] }

/-- The failure of one foundation, if its task failed: its URL and the cause. -/
def taskFailure (appPath : String) (deploymentInfo : DeploymentInfo)
    (fp : String × BoundPusher) : Option (String × String) :=
  (foundationTask fp.2 fp.1 appPath deploymentInfo).err.map (fun cause => (fp.1, cause))

/-- The failure of the rollback on one foundation, if it was rolled back and the rollback
failed: its URL and the cause. -/
def rollbackFailure (appPath : String) (deploymentInfo : DeploymentInfo)
    (fp : String × BoundPusher) : Option (String × String) :=
  if (foundationTask fp.2 fp.1 appPath deploymentInfo).renamed
    then fp.2.Rollback.map (fun cause => (fp.1, cause)) else none

/-- The errors of `Orchestrator.Push`: the error of the precheck; the error of a
`CreatePusher` call; or the failures of the deployment, each with the URL of the failing
foundation and the cause, and alongside them the failures of the rollbacks. -/
inductive OrchestratorError where
  | Precheck (err : PrecheckError) : OrchestratorError
  | CreatePusherFailed (err : String) : OrchestratorError
  | PushFailed (failures rollbackFailures : List (String × String)) : OrchestratorError
deriving DecidableEq, Repr

/-- Modelled from the spec: `bluegreen.go` is not among the sources.  The deployment on a
fleet of bound Pushers (section 4.4 of the design document): one task per foundation,
joined at a barrier.  When all succeeded: the commit branch on every foundation, and
success ("return success"; what DeleteVenerable and CleanUp answer is kept in the run of
the foundation).  When any failed: the compensation branch on every foundation, and an
error listing each failing foundation with its cause and, alongside (section 7), each
failed rollback. -/
def pushFleet (fleet : List (String × BoundPusher)) (appPath : String)
    (deploymentInfo : DeploymentInfo) : Option OrchestratorError × List FoundationRun :=
  let failures := fleet.filterMap (taskFailure appPath deploymentInfo)
  if failures.isEmpty then (none, fleet.map (commitRun appPath deploymentInfo))
  else
    (some (OrchestratorError.PushFailed failures
        (fleet.filterMap (rollbackFailure appPath deploymentInfo))),
      fleet.map (rollbackRun appPath deploymentInfo))

/-- The interface `PusherCreator` (`interfaces/pushercreator.go`), as an oracle:
`CreatePusher(deploymentInfo, response)` returns a Pusher or an error; the argument `n`
is the number of earlier calls.  The response stream it is handed is not modelled: what
a Pusher writes does not enter its answers. -/
abbrev PusherCreator := Nat → DeploymentInfo → Except String BoundPusher

/-- One `CreatePusher` call per foundation, in list order, up to the first that fails:
the Pushers bound to their foundations, or the Pushers created so far with the foundation
whose creation failed and the error. -/
def createPushers (creator : PusherCreator) (deploymentInfo : DeploymentInfo) :
    Nat → List String →
      Except (List (String × BoundPusher) × String × String) (List (String × BoundPusher))
  | _, [] => Except.ok []
  | n, foundationURL :: rest =>
    match creator n deploymentInfo with
    | Except.error err => Except.error ([], foundationURL, err)
    | Except.ok pusher =>
      match createPushers creator deploymentInfo (n + 1) rest with
      | Except.error (created, failedURL, err) =>
        Except.error ((foundationURL, pusher) :: created, failedURL, err)
      | Except.ok fleet => Except.ok ((foundationURL, pusher) :: fleet)

/-- Modelled from the spec: `bluegreen.go` is not among the sources, only the interface
`BlueGreener` and its mock.  This is `Push(environment, appPath, deploymentInfo,
response)` as section 4.4 of the design document describes it: the precheck runs first
and its failure aborts before any foundation is touched; otherwise a Pusher is obtained
for each foundation and the fleet is deployed.  The design document does not say what
`Push` does when a `CreatePusher` call fails, so that is the parameter `createFailed`,
given the Pushers created so far, the foundation whose creation failed, and the error.
The result is the returned error, the world after the precheck, and what was done on
each foundation. -/
def Orchestrator.Push (p : Prechecker) (http : Http) (errText : PrecheckError → String)
    (creator : PusherCreator)
    (createFailed : List (String × BoundPusher) → String → String →
      Option OrchestratorError × List FoundationRun)
    (environment : Environment) (appPath : String)
    (deploymentInfo : DeploymentInfo) (w : World) :
    Option OrchestratorError × World × List FoundationRun :=
  match AssertAllFoundationsUp p http errText environment w with
  | (some err, w1) => (some (OrchestratorError.Precheck err), w1, [])
  | (none, w1) =>
    match createPushers creator deploymentInfo 0 environment.Foundations with
    | Except.error (created, failedURL, err) =>
      ((createFailed created failedURL err).1, w1, (createFailed created failedURL err).2)
    | Except.ok fleet =>
      ((pushFleet fleet appPath deploymentInfo).1, w1,
        (pushFleet fleet appPath deploymentInfo).2)

/-! ## Package `path` of the Go library -/

/-- The backtracking of `path.Clean` on a `..` element, on the reversed output buffer:
`out.w--`, then `out.w--` again as long as `out.w > dotdot` and the byte just dropped is
not a slash. -/
def path.cleanBacktrack (dotdot : Nat) : List Char → List Char
  | [] => []
  | c :: revOut =>
    if dotdot < revOut.length ∧ c ≠ '/' then path.cleanBacktrack dotdot revOut else revOut

/-- The loop of `path.Clean` (Go library, `path/path.go`): `r` is the read index into
the path `name`, `out` the output written so far, `dotdot` the index where `..` must stop.  Every
turn moves `r` forward, so `name.length + 1` turns of fuel are enough. -/
def path.cleanLoop (name : List Char) (rooted : Bool) :
    Nat → Nat → List Char → Nat → List Char
  | 0, _, out, _ => out
  | fuel + 1, r, out, dotdot =>
    if r < name.length then
      if name.getD r ' ' = '/' then
        path.cleanLoop name rooted fuel (r + 1) out dotdot
      else if name.getD r ' ' = '.' ∧ (r + 1 = name.length ∨ name.getD (r + 1) ' ' = '/') then
        path.cleanLoop name rooted fuel (r + 1) out dotdot
      else if name.getD r ' ' = '.' ∧ name.getD (r + 1) ' ' = '.' ∧
          (r + 2 = name.length ∨ name.getD (r + 2) ' ' = '/') then
        if dotdot < out.length then
          path.cleanLoop name rooted fuel (r + 2)
            (path.cleanBacktrack dotdot out.reverse).reverse dotdot
        else if rooted = false then
          path.cleanLoop name rooted fuel (r + 2)
            ((if 0 < out.length then out ++ ['/'] else out) ++ ['.', '.'])
            ((if 0 < out.length then out ++ ['/'] else out) ++ ['.', '.']).length
        else
          path.cleanLoop name rooted fuel (r + 2) out dotdot
      else
        path.cleanLoop name rooted fuel
          (r + ((name.drop r).takeWhile (fun c => c ≠ '/')).length)
          ((if (rooted = true ∧ out.length ≠ 1) ∨ (rooted = false ∧ out.length ≠ 0)
              then out ++ ['/'] else out) ++
            (name.drop r).takeWhile (fun c => c ≠ '/'))
          dotdot
    else out

/-- The function `path.Clean` of the Go library: the shortest path name equivalent to
`name` by purely lexical processing.  Go works on bytes and this works on characters,
which is the same here because only `/` and `.` are inspected. -/
def path.Clean (name : String) : String :=
  if name = "" then "."
  else
    let rooted : Bool := name.data.head? = some '/'
    let out := path.cleanLoop name.data rooted (name.data.length + 1)
      (if rooted then 1 else 0) (if rooted then ['/'] else []) (if rooted then 1 else 0)
    if out.length = 0 then "." else String.mk out

/-- The function `path.Join` of the Go library: the elements from the first non-empty one
on, joined with slashes and cleaned; the empty string when all are empty. -/
def path.Join (elem : List String) : String :=
  match elem.dropWhile (fun e => e = "") with
  | [] => ""
  | e :: rest => path.Clean ("/".intercalate (e :: rest))

/-- The function `path.Dir` of the Go library: everything up to and including the last
slash, cleaned. -/
def path.Dir (name : String) : String :=
  path.Clean (String.mk (name.data.reverse.dropWhile (fun c => c ≠ '/')).reverse)

/-! ## The extractor -/

/-- The constant `niceFixYourZipMessage` of `extractor.go`. -/
def niceFixYourZipMessage : String :=
  "Please double check your zip compression method and that the correct files are zipped.\n" ++
  "You can try confirming that it's valid on your computer by opening or performing some other action on it.\n" ++
  "Once you've confirmed that it's valid, please try again."

/-- The flags `os.O_WRONLY|os.O_CREATE|os.O_TRUNC` (their values on Linux: 1, 64, 512). -/
def writeCreateTruncate : Nat := 1 ||| 64 ||| 512

/-- An entry `zip.File` of the archive, as far as `unzipFile` reads it: its name, whether
`FileInfo().IsDir()` holds, its `Mode()`, and the bytes its `Open()` reader yields. -/
structure ZipFile where
  Name : String
  IsDir : Bool
  Mode : Nat
  Contents : String
deriving DecidableEq, Repr

/-- The operations `Unzip` performs on the file system and on the archive, each of which
can fail. -/
inductive FsOp where
  | MkdirAll (name : String) (perm : Nat) : FsOp
  | Open (name : String) : FsOp
  | Stat (name : String) : FsOp
  | NewReader (source : String) : FsOp
  | EntryOpen (name : String) : FsOp
  | EntryClose (name : String) : FsOp
  | OpenFile (name : String) (flag : Nat) (perm : Nat) : FsOp
  | Copy (name : String) : FsOp
  | Fprint (name : String) : FsOp
  | Close (name : String) : FsOp
deriving DecidableEq, Repr

/-- The environment of the extractor, as an oracle: the error of an operation (`none` for
`nil`), given the operations done before; and, for a write that fails, how much of the
data reached the file. -/
structure FsFaults where
  fault : List FsOp → FsOp → Option String
  written : List FsOp → FsOp → Nat

/-- The state of the file system `e.FileSystem` and of the logger `e.Log`: the files with
their contents (the newest write of a name first), the directories made, the operations
done, and the calls of the logger, each with its level and its arguments; the last three
oldest first. -/
structure FsState where
  files : List (String × String)
  dirs : List String
  ops : List FsOp
  log : List (String × List String)
deriving DecidableEq, Repr

/-- An empty file system. -/
def FsState.init : FsState := { files := [], dirs := [], ops := [], log := [] }

/-- The contents of a file, if it exists. -/
def FsState.read (st : FsState) (name : String) : Option String :=
  st.files.lookup name

/-- One operation: it is recorded, and its error is the result. -/
def FsState.run (faults : FsFaults) (st : FsState) (op : FsOp) : Option String × FsState :=
  (faults.fault st.ops op, { st with ops := st.ops ++ [op] })

/-- A deferred `Close()`, whose error is dropped. -/
def FsState.close (faults : FsFaults) (st : FsState) (op : FsOp) : FsState :=
  (st.run faults op).2

/-- The contents of a file are replaced. -/
def FsState.setFile (st : FsState) (name contents : String) : FsState :=
  { st with files := (name, contents) :: st.files }

/-- A directory is made. -/
def FsState.mkdir (st : FsState) (name : String) : FsState :=
  { st with dirs := st.dirs ++ [name] }

/-- A call of `e.Log.Info` or `e.Log.Debug` with its arguments. -/
def FsState.logCall (st : FsState) (level : String) (args : List String) : FsState :=
  { st with log := st.log ++ [(level, args)] }

/-- The method `Extractor.unzipFile`: the returned error and the state after the call.
A successful `OpenFile` with `O_CREATE|O_TRUNC` leaves the file empty; a successful
`io.Copy` leaves it with the contents of the entry, a failed one with what was written
before the failure. -/
def Extractor.unzipFile (faults : FsFaults) (destination : String) (file : ZipFile)
    (st : FsState) : Option String × FsState :=
  match st.run faults (FsOp.EntryOpen file.Name) with
  | (some err, st1) => (some ("cannot extract file from archive" ++ ": " ++ err), st1)
  | (none, st1) =>
    if file.IsDir then (none, st1.close faults (FsOp.EntryClose file.Name))
    else
      let savedLocation := path.Join [destination, file.Name]
      let directory := path.Dir savedLocation
      match st1.run faults (FsOp.MkdirAll directory 0o755) with
      | (some err, st2) =>
        (some ("cannot make directory" ++ ": " ++ directory ++ ": " ++ err),
          st2.close faults (FsOp.EntryClose file.Name))
      | (none, st2) =>
        match (st2.mkdir directory).run faults
            (FsOp.OpenFile savedLocation writeCreateTruncate file.Mode) with
        | (some err, st3) =>
          (some ("cannot open file for writing" ++ ": " ++ savedLocation ++ ": " ++ err),
            st3.close faults (FsOp.EntryClose file.Name))
        | (none, st3) =>
          match (st3.setFile savedLocation "").run faults (FsOp.Copy savedLocation) with
          | (some err, st4) =>
            (some ("cannot write to file" ++ ": " ++ savedLocation ++ ": " ++ err),
              ((st4.setFile savedLocation (String.mk (file.Contents.data.take
                (faults.written st3.ops (FsOp.Copy savedLocation))))).close faults
                  (FsOp.Close savedLocation)).close faults (FsOp.EntryClose file.Name))
          | (none, st4) =>
            (none, ((st4.setFile savedLocation file.Contents).close faults
              (FsOp.Close savedLocation)).close faults (FsOp.EntryClose file.Name))

/-- The loop at lines 55-60 of `extractor.go`, over the entries still to extract. -/
def Extractor.unzipFiles (faults : FsFaults) (destination : String) :
    List ZipFile → FsState → Option String × FsState
  | [], st => (none, st)
  | file :: rest, st =>
    match Extractor.unzipFile faults destination file st with
    | (some err, st1) =>
      (some ("cannot extract file from archive" ++ ": " ++ file.Name ++ ": " ++ err), st1)
    | (none, st1) => Extractor.unzipFiles faults destination rest st1

/-- The part of `Extractor.Unzip` after the archive is read (lines 62-76 of
`extractor.go`): the manifest, when one is given, is written to
`path.Join(destination, "manifest.yml")`. -/
def Extractor.writeManifest (faults : FsFaults) (source destination manifest : String)
    (st : FsState) : Option String × FsState :=
  if manifest ≠ "" then
    match st.run faults (FsOp.OpenFile (path.Join [destination, "manifest.yml"])
        writeCreateTruncate 0o600) with
    | (some err, st1) =>
      (some ("cannot open manifest file" ++ ": " ++ err), st1.close faults (FsOp.Close source))
    | (none, st1) =>
      match (st1.setFile (path.Join [destination, "manifest.yml"]) "").run faults
          (FsOp.Fprint (path.Join [destination, "manifest.yml"])) with
      | (some err, st2) =>
        (some ("cannot print to open manifest file" ++ ": " ++ err),
          ((st2.setFile (path.Join [destination, "manifest.yml"])
            (String.mk (manifest.data.take (faults.written st1.ops
              (FsOp.Fprint (path.Join [destination, "manifest.yml"])))))).close faults
              (FsOp.Close (path.Join [destination, "manifest.yml"]))).close faults
                (FsOp.Close source))
      | (none, st2) =>
        (none,
          (((st2.setFile (path.Join [destination, "manifest.yml"]) manifest).logCall "Info"
            ["extract was successful"]).close faults
              (FsOp.Close (path.Join [destination, "manifest.yml"]))).close faults
                (FsOp.Close source))
  else (none, (st.logCall "Info" ["extract was successful"]).close faults (FsOp.Close source))

/-- The method `Extractor.Unzip`: the returned error (`none` for `nil`) and the state
after the call.  `reader` is the list `reader.File` that `zip.NewReader` yields for the
archive at `source` when it succeeds. -/
def Extractor.Unzip (faults : FsFaults) (reader : List ZipFile)
    (source destination manifest : String) (st : FsState) : Option String × FsState :=
  let st0 := (st.logCall "Info" ["extracting application"]).logCall "Debug"
    ["parameters for extractor:\n\tsource: %+v\n\tdestination: %+v", source, destination]
  match st0.run faults (FsOp.MkdirAll destination 0o755) with
  | (some err, st1) => (some ("cannot create directory" ++ ": " ++ err), st1)
  | (none, st1) =>
    match (st1.mkdir destination).run faults (FsOp.Open source) with
    | (some err, st2) => (some err, st2)
    | (none, st2) =>
      match st2.run faults (FsOp.Stat source) with
      | (some err, st3) => (some err, st3.close faults (FsOp.Close source))
      | (none, st3) =>
        match st3.run faults (FsOp.NewReader source) with
        | (some err, st4) =>
          (some ("cannot open zip file" ++ ": " ++ source ++ ": " ++ err ++ "\n" ++
            niceFixYourZipMessage), st4.close faults (FsOp.Close source))
        | (none, st4) =>
          match Extractor.unzipFiles faults destination reader st4 with
          | (some err, st5) => (some err, st5.close faults (FsOp.Close source))
          | (none, st5) => Extractor.writeManifest faults source destination manifest st5

/-- What a file name holds after one entry of the archive is extracted without error, given
what it held before: the contents of the entry when the entry is a file saved under that
name, and what it held before otherwise. -/
def afterEntry (destination name : String) (before : Option String) (file : ZipFile) :
    Option String :=
  if file.IsDir = false ∧ path.Join [destination, file.Name] = name then some file.Contents
  else before

/-! ## Sample inputs -/

/-- An event manager whose `Emit` always returns `nil`. -/
def quietManager : EventManager := { EmitReturns := fun _ _ => none }

/-- A prechecker bound to `quietManager`. -/
def samplePrechecker : Prechecker := { EventManager := quietManager }

/-- A network that answers the GETs from a script, by call number; past the end of the
script every GET answers 200. -/
def scriptedHttp (script : List (Except String Response)) : Http :=
  fun n _ => script.getD n (Except.ok { Status := "200 OK", StatusCode := 200 })

/-- A sample `Error()` text for the prechecker's error types. -/
def sampleErrText : PrecheckError → String
  | PrecheckError.NoFoundationsConfiguredError => "no foundations configured"
  | PrecheckError.InvalidGetRequestError foundationURL err =>
    "cannot send get request to " ++ foundationURL ++ ": " ++ err
  | PrecheckError.FoundationUnavailableError foundationURL status =>
    "foundation unavailable: " ++ foundationURL ++ ": " ++ status

/-- An environment shaped like the ones of `config_test.go`, with the given foundations
and skip-SSL flag. -/
def sampleEnvironment (foundations : List String) (skipSSL : Bool) : Environment :=
  { Name := "Test", Domain := "test.example.com", Foundations := foundations,
    SkipSSL := skipSSL, Instances := 3 }

/-- Three foundation URLs. -/
def sampleFoundations : List String :=
  ["https://api1.example.com", "https://api2.example.com", "https://api3.example.com"]

/-- The answer of a foundation that is up. -/
def respOK : Response := { Status := "200 OK", StatusCode := 200 }

/-- The answer of a foundation that is down. -/
def resp500 : Response := { Status := "500 Internal Server Error", StatusCode := 500 }

/-- The request `insecureClient.Get` records for one foundation. -/
def probeRequest (client : Client) (foundationURL : String) : Request :=
  { client := client, url := foundationURL ++ "/v2/info" }

/-- The event `AssertAllFoundationsUp` emits, with its description. -/
def foundationsUnavailable (environment : Environment) (description : String) : Event :=
  { Type_ := "validate.foundationsUnavailable",
    Data := { Environment := environment, Description := description } }

/-- A Courier that answers by kind of call, whatever was done before: the given output
and error for `Rename`, `Push`, `MapRoute` and `Logs`, and success without output for
the other calls. -/
def scriptedCourier (rename push mapRoute logs : String × Option String) : Courier :=
  { answer := fun _ k =>
      match k with
      | CourierCall.Rename _ _ => rename
      | CourierCall.Push _ _ _ => push
      | CourierCall.MapRoute _ _ => mapRoute
      | CourierCall.Logs _ => logs
      | _ => ("", none) }

/-- A deployment of the app "myapp" with three instances. -/
def sampleDeployment : DeploymentInfo :=
  { ArtifactURL := "https://artifacts.example.com/myapp.zip", Manifest := "",
    Username := "user", Password := "secret", Environment := "test", Org := "org",
    Space := "space", AppName := "myapp", UUID := "0001", SkipSSL := false, Instances := 3,
    Domain := "test.example.com", AppPath := "/tmp/myapp", EnvironmentVariables := [],
    HealthCheckEndpoint := "", Data := [] }

/-- A Courier that answers by kind of call for the calls of a rollback and a login: the
given output and error for `Login`, `Delete` and `Rename`, success without output for the
other calls. -/
def scriptedCourier2 (login delete rename : String × Option String) : Courier :=
  { answer := fun _ k =>
      match k with
      | CourierCall.Login _ _ _ _ _ _ => login
      | CourierCall.Delete _ => delete
      | CourierCall.Rename _ _ => rename
      | _ => ("", none) }

/-- A way to put two failures into one error text. -/
def sampleJoinErrors (first second : String) : String := first ++ ": " ++ second

/-- The entry `production` of `config_test.go` (lines 167-174), with `instances: 0`. -/
def productionYaml : EnvironmentYaml :=
  { name := some "production", domain := some "example.com",
    foundations := some ["api1.example.com", "api2.example.com"],
    skip_ssl := none, instances := some 0 }

/-- A Pusher on which every operation succeeds, for an app that exists or not. -/
def healthyPusher (appExists : Bool) : BoundPusher :=
  { Login := none, Exists := appExists, Push := none, Rollback := none,
    DeleteVenerable := none, CleanUp := none }

/-- A Pusher whose push fails with the given cause, for a new app. -/
def failingPusher (cause : String) : BoundPusher :=
  { Login := none, Exists := false, Push := some cause, Rollback := none,
    DeleteVenerable := none, CleanUp := none }

/-- Two foundations: A already hosts the app, B does not. -/
def twoFoundations : Environment :=
  sampleEnvironment ["https://a.example.com", "https://b.example.com"] false

/-- The creator of the end-to-end success case of the design document: every operation
succeeds; the app exists on the first foundation only. -/
def healthyCreator : PusherCreator :=
  fun n _ => Except.ok (healthyPusher (n == 0))

/-- The creator of the end-to-end failure case of the design document: the push on the
second foundation fails. -/
def secondFailsCreator : PusherCreator :=
  fun n _ => Except.ok (if n == 0 then healthyPusher true else failingPusher "push error")

/-- One way to end `Push` when a `CreatePusher` call fails: return that error and do
nothing on any foundation. -/
def sampleCreateFailed : List (String × BoundPusher) → String → String →
    Option OrchestratorError × List FoundationRun :=
  fun _ _ err => (some (OrchestratorError.CreatePusherFailed err), [])

/-- An environment in which no operation of the extractor fails. -/
def noFaults : FsFaults := { fault := fun _ _ => none, written := fun _ _ => 0 }

/-- An archive with a manifest and one more file. -/
def sampleArchive : List ZipFile :=
  [{ Name := "manifest.yml", IsDir := false, Mode := 0o644, Contents := "applications: []" },
   { Name := "index.html", IsDir := false, Mode := 0o644, Contents := "<html/>" }]

/-- An archive with an entry whose name climbs out of the directory it is extracted to. -/
def escapingArchive : List ZipFile :=
  [{ Name := "../evil.txt", IsDir := false, Mode := 0o644, Contents := "evil" }]

/-! ## Properties of `AssertAllFoundationsUp` -/

/-- The loop runs through a prefix of foundations that all answer 200: it issues their
GETs in order, defers one close per response, and goes on with the rest. -/
theorem probeFoundations_through_healthy (p : Prechecker) (http : Http)
    (errText : PrecheckError → String) (client : Client) (data : PrecheckerEventData)
    (pre rest : List String) :
    ∀ (deferred : Nat) (w : World),
      (∀ (j : Nat) (hj : j < pre.length), ∃ r : Response,
        http (w.requests.length + j) (pre.get ⟨j, hj⟩ ++ "/v2/info") = Except.ok r ∧
          r.StatusCode = StatusOK) →
      probeFoundations p http errText client data (pre ++ rest) deferred w =
        probeFoundations p http errText client data rest (deferred + pre.length)
          { w with requests := w.requests ++ pre.map (probeRequest client) } := by
  induction pre with
  | nil => intro deferred w _; simp
  | cons f pre ih =>
    intro deferred w h
    obtain ⟨r, hr, hcode⟩ := h 0 (by simp)
    simp only [Nat.add_zero, List.get_eq_getElem, List.getElem_cons_zero] at hr
    have hstep : probeFoundations p http errText client data (f :: (pre ++ rest)) deferred w =
        probeFoundations p http errText client data (pre ++ rest) (deferred + 1)
          { w with requests := w.requests ++ [probeRequest client f] } := by
      simp [probeFoundations, Client.Get, hr, hcode, probeRequest]
    rw [List.cons_append, hstep, ih]
    · simp [Nat.add_comm, Nat.add_left_comm, List.append_assoc]
    · intro j hj
      obtain ⟨r2, hr2, hcode2⟩ := h (j + 1) (by simpa using hj)
      refine ⟨r2, ?_, hcode2⟩
      simpa [Nat.add_assoc, Nat.add_comm 1 j] using hr2

/-- Whatever the network answers, the GETs the loop issues are those of a prefix of the
foundations, in order, all sent with the client it was given. -/
theorem probeFoundations_requests (p : Prechecker) (http : Http)
    (errText : PrecheckError → String) (client : Client) (data : PrecheckerEventData)
    (fs : List String) :
    ∀ (deferred : Nat) (w : World), ∃ k : Nat, k ≤ fs.length ∧
      (probeFoundations p http errText client data fs deferred w).2.requests =
        w.requests ++ (fs.take k).map (probeRequest client) := by
  induction fs with
  | nil => intro deferred w; exact ⟨0, by simp, by simp [probeFoundations, runDeferred]⟩
  | cons f fs ih =>
    intro deferred w
    cases hget : http w.requests.length (f ++ "/v2/info") with
    | error e =>
      exact ⟨1, by simp, by
        simp [probeFoundations, Client.Get, hget, runDeferred, probeRequest]⟩
    | ok resp =>
      by_cases hcode : resp.StatusCode = StatusOK
      · obtain ⟨k, hk, hreq⟩ := ih (deferred + 1)
          { w with requests := w.requests ++ [probeRequest client f] }
        refine ⟨k + 1, by simpa using hk, ?_⟩
        have hstep : probeFoundations p http errText client data (f :: fs) deferred w =
            probeFoundations p http errText client data fs (deferred + 1)
              { w with requests := w.requests ++ [probeRequest client f] } := by
          simp [probeFoundations, Client.Get, hget, hcode, probeRequest]
        rw [hstep, hreq]
        simp
      · exact ⟨1, by simp, by
          simp [probeFoundations, Client.Get, hget, hcode, runDeferred, probeRequest,
            EventManager.Emit]⟩

/-- The loop reaches foundation `i` when every earlier foundation answers 200: it has then
issued exactly the first `i` GETs and deferred `i` closes. -/
theorem probeFoundations_reach (p : Prechecker) (http : Http)
    (errText : PrecheckError → String) (client : Client) (data : PrecheckerEventData)
    (fs : List String) (w : World) (i : Nat) (hi : i < fs.length)
    (hearlier : ∀ (j : Nat) (hj : j < i), ∃ r : Response,
      http (w.requests.length + j) (fs.get ⟨j, Nat.lt_trans hj hi⟩ ++ "/v2/info") = Except.ok r ∧
        r.StatusCode = StatusOK) :
    probeFoundations p http errText client data fs 0 w =
      probeFoundations p http errText client data (fs.get ⟨i, hi⟩ :: fs.drop (i + 1)) i
        { w with requests := w.requests ++ (fs.take i).map (probeRequest client) } := by
  have hsplit : fs = fs.take i ++ (fs.get ⟨i, hi⟩ :: fs.drop (i + 1)) := by
    rw [List.get_eq_getElem, ← List.drop_eq_getElem_cons hi, List.take_append_drop]
  have hlen : (fs.take i).length = i := by
    rw [List.length_take]; omega
  have h := probeFoundations_through_healthy p http errText client data (fs.take i)
    (fs.get ⟨i, hi⟩ :: fs.drop (i + 1)) 0 w (by
      intro j hj
      have hj2 : j < i := by rw [hlen] at hj; exact hj
      obtain ⟨r, hr, hcode⟩ := hearlier j hj2
      refine ⟨r, ?_, hcode⟩
      simpa [List.getElem_take] using hr)
  rw [← hsplit, hlen, Nat.zero_add] at h
  exact h

/-- One turn of the loop on a transport-level failure: the error is returned without any
event, and the pending closes run. -/
theorem probeFoundations_cons_error (p : Prechecker) (http : Http)
    (errText : PrecheckError → String) (client : Client) (data : PrecheckerEventData)
    (f : String) (rest : List String) (deferred : Nat) (w : World) (e : String)
    (hget : http w.requests.length (f ++ "/v2/info") = Except.error e) :
    probeFoundations p http errText client data (f :: rest) deferred w =
      (some (PrecheckError.InvalidGetRequestError f e),
        { requests := w.requests ++ [probeRequest client f],
          events := w.events,
          closedBodies := w.closedBodies + deferred }) := by
  simp only [probeFoundations, Client.Get, hget, runDeferred, probeRequest]

/-- One turn of the loop on a response other than 200: the event is emitted with the text
of the error, the error is returned, and the pending closes run. -/
theorem probeFoundations_cons_unavailable (p : Prechecker) (http : Http)
    (errText : PrecheckError → String) (client : Client) (data : PrecheckerEventData)
    (f : String) (rest : List String) (deferred : Nat) (w : World) (resp : Response)
    (hget : http w.requests.length (f ++ "/v2/info") = Except.ok resp)
    (hcode : resp.StatusCode ≠ StatusOK) :
    probeFoundations p http errText client data (f :: rest) deferred w =
      (some (PrecheckError.FoundationUnavailableError f resp.Status),
        { requests := w.requests ++ [probeRequest client f],
          events := w.events ++ [foundationsUnavailable data.Environment
            (errText (PrecheckError.FoundationUnavailableError f resp.Status))],
          closedBodies := w.closedBodies + (deferred + 1) }) := by
  simp only [probeFoundations, Client.Get, hget, hcode, runDeferred, probeRequest,
    EventManager.Emit, foundationsUnavailable, ne_eq, not_false_eq_true, if_true]

/-- C1: for every environment whose `Foundations` list is empty, `AssertAllFoundationsUp`
returns `NoFoundationsConfiguredError`, calls `Emit` exactly once, with an event of type
"validate.foundationsUnavailable" whose data has the description "no foundations
configured" and the environment passed in, and issues no GET (the requests of the world
are unchanged). -/
theorem C1_no_foundations_configured (p : Prechecker) (http : Http)
    (errText : PrecheckError → String) (environment : Environment) (w : World)
    (hempty : environment.Foundations = []) :
    AssertAllFoundationsUp p http errText environment w =
      (some PrecheckError.NoFoundationsConfiguredError,
        { requests := w.requests,
          events := w.events ++
            [{ Type_ := "validate.foundationsUnavailable",
               Data := { Environment := environment,
                         Description := "no foundations configured" } }],
          closedBodies := w.closedBodies }) := by
  simp [AssertAllFoundationsUp, hempty, EventManager.Emit]

/-- Witness of C1 at an environment without foundations. -/
theorem C1_no_foundations_configured_witness :
    (sampleEnvironment [] false).Foundations = [] ∧
    AssertAllFoundationsUp samplePrechecker (scriptedHttp []) sampleErrText
        (sampleEnvironment [] false) World.init =
      (some PrecheckError.NoFoundationsConfiguredError,
        { requests := [],
          events := [{ Type_ := "validate.foundationsUnavailable",
                       Data := { Environment := sampleEnvironment [] false,
                                 Description := "no foundations configured" } }],
          closedBodies := 0 }) :=
  ⟨rfl, C1_no_foundations_configured samplePrechecker (scriptedHttp []) sampleErrText
    (sampleEnvironment [] false) World.init rfl⟩

/-- C2: when foundation `i` is the first whose GET on "/v2/info" answers with a status
other than 200, all earlier ones answering 200, `AssertAllFoundationsUp` returns a
`FoundationUnavailableError` carrying `foundations[i]` and the status text of that
response, and the GETs issued are exactly those of foundations `0..i`, so no later
foundation is probed. -/
theorem C2_first_unavailable_foundation (p : Prechecker) (http : Http)
    (errText : PrecheckError → String) (environment : Environment) (w : World)
    (i : Nat) (hi : i < environment.Foundations.length) (resp : Response)
    (hearlier : ∀ (j : Nat) (hj : j < i), ∃ r : Response,
      http (w.requests.length + j)
        (environment.Foundations.get ⟨j, Nat.lt_trans hj hi⟩ ++ "/v2/info") = Except.ok r ∧
        r.StatusCode = 200)
    (hresp : http (w.requests.length + i)
      (environment.Foundations.get ⟨i, hi⟩ ++ "/v2/info") = Except.ok resp)
    (hcode : resp.StatusCode ≠ 200) :
    (AssertAllFoundationsUp p http errText environment w).1 =
        some (PrecheckError.FoundationUnavailableError
          (environment.Foundations.get ⟨i, hi⟩) resp.Status) ∧
      (AssertAllFoundationsUp p http errText environment w).2.requests =
        w.requests ++ (environment.Foundations.take (i + 1)).map
          (probeRequest (insecureClient environment)) := by
  have hne : ¬ environment.Foundations.length = 0 := by omega
  have hreach := probeFoundations_reach p http errText (insecureClient environment)
    { Environment := environment, Description := "" } environment.Foundations w i hi hearlier
  have hlen : (List.take i environment.Foundations).length = i := by
    rw [List.length_take]; omega
  have hstep := probeFoundations_cons_unavailable p http errText (insecureClient environment)
    { Environment := environment, Description := "" } (environment.Foundations.get ⟨i, hi⟩)
    (environment.Foundations.drop (i + 1)) i
    { w with requests := w.requests ++
        (environment.Foundations.take i).map (probeRequest (insecureClient environment)) }
    resp (by simp only [List.length_append, List.length_map, hlen]; exact hresp) hcode
  have hrun : AssertAllFoundationsUp p http errText environment w =
      probeFoundations p http errText (insecureClient environment)
        { Environment := environment, Description := "" } environment.Foundations 0 w := by
    simp only [AssertAllFoundationsUp, hne, if_false]
  rw [hrun, hreach, hstep]
  refine ⟨rfl, ?_⟩
  rw [← List.take_concat_get' _ i hi, List.map_append, List.append_assoc]
  rfl

/-- Witness of C2: three foundations, the second answers 500; the third is not probed. -/
theorem C2_first_unavailable_foundation_witness :
    (AssertAllFoundationsUp samplePrechecker
        (scriptedHttp [Except.ok respOK, Except.ok resp500]) sampleErrText
        (sampleEnvironment sampleFoundations false) World.init).1 =
      some (PrecheckError.FoundationUnavailableError "https://api2.example.com"
        "500 Internal Server Error") ∧
    (AssertAllFoundationsUp samplePrechecker
        (scriptedHttp [Except.ok respOK, Except.ok resp500]) sampleErrText
        (sampleEnvironment sampleFoundations false) World.init).2.requests =
      [probeRequest (insecureClient (sampleEnvironment sampleFoundations false))
         "https://api1.example.com",
       probeRequest (insecureClient (sampleEnvironment sampleFoundations false))
         "https://api2.example.com"] :=
  C2_first_unavailable_foundation samplePrechecker
    (scriptedHttp [Except.ok respOK, Except.ok resp500]) sampleErrText
    (sampleEnvironment sampleFoundations false) World.init 1 (by decide) resp500
    (by
      intro j hj
      have hj0 : j = 0 := by omega
      subst hj0
      exact ⟨respOK, rfl, rfl⟩)
    rfl (by decide)

/-- C3, evaluated where it fails: the only foundation cannot be reached (a transport-level
failure); `AssertAllFoundationsUp` returns an `InvalidGetRequestError` and has emitted no
event at all. -/
theorem C3_transport_failure_emits_no_event :
    AssertAllFoundationsUp samplePrechecker
        (scriptedHttp [Except.error "dial tcp: connection refused"]) sampleErrText
        (sampleEnvironment ["https://api1.example.com"] false) World.init =
      (some (PrecheckError.InvalidGetRequestError "https://api1.example.com"
          "dial tcp: connection refused"),
        { requests := [probeRequest
            (insecureClient (sampleEnvironment ["https://api1.example.com"] false))
            "https://api1.example.com"],
          events := [],
          closedBodies := 0 }) := by
  rfl

/-- C4: when foundation `i` is the first whose GET fails at transport level, all earlier
ones answering 200, `AssertAllFoundationsUp` returns an `InvalidGetRequestError` carrying
`foundations[i]` and the transport error, and the GETs issued are exactly those of
foundations `0..i`, so no later foundation is probed. -/
theorem C4_first_transport_failure (p : Prechecker) (http : Http)
    (errText : PrecheckError → String) (environment : Environment) (w : World)
    (i : Nat) (hi : i < environment.Foundations.length) (cause : String)
    (hearlier : ∀ (j : Nat) (hj : j < i), ∃ r : Response,
      http (w.requests.length + j)
        (environment.Foundations.get ⟨j, Nat.lt_trans hj hi⟩ ++ "/v2/info") = Except.ok r ∧
        r.StatusCode = 200)
    (hfail : http (w.requests.length + i)
      (environment.Foundations.get ⟨i, hi⟩ ++ "/v2/info") = Except.error cause) :
    (AssertAllFoundationsUp p http errText environment w).1 =
        some (PrecheckError.InvalidGetRequestError
          (environment.Foundations.get ⟨i, hi⟩) cause) ∧
      (AssertAllFoundationsUp p http errText environment w).2.requests =
        w.requests ++ (environment.Foundations.take (i + 1)).map
          (probeRequest (insecureClient environment)) := by
  have hne : ¬ environment.Foundations.length = 0 := by omega
  have hreach := probeFoundations_reach p http errText (insecureClient environment)
    { Environment := environment, Description := "" } environment.Foundations w i hi hearlier
  have hlen : (List.take i environment.Foundations).length = i := by
    rw [List.length_take]; omega
  have hstep := probeFoundations_cons_error p http errText (insecureClient environment)
    { Environment := environment, Description := "" } (environment.Foundations.get ⟨i, hi⟩)
    (environment.Foundations.drop (i + 1)) i
    { w with requests := w.requests ++
        (environment.Foundations.take i).map (probeRequest (insecureClient environment)) }
    cause (by simp only [List.length_append, List.length_map, hlen]; exact hfail)
  have hrun : AssertAllFoundationsUp p http errText environment w =
      probeFoundations p http errText (insecureClient environment)
        { Environment := environment, Description := "" } environment.Foundations 0 w := by
    simp only [AssertAllFoundationsUp, hne, if_false]
  rw [hrun, hreach, hstep]
  refine ⟨rfl, ?_⟩
  rw [← List.take_concat_get' _ i hi, List.map_append, List.append_assoc]
  rfl

/-- Witness of C4: three foundations, the second cannot be reached; the third is not
probed. -/
theorem C4_first_transport_failure_witness :
    (AssertAllFoundationsUp samplePrechecker
        (scriptedHttp [Except.ok respOK, Except.error "i/o timeout"]) sampleErrText
        (sampleEnvironment sampleFoundations true) World.init).1 =
      some (PrecheckError.InvalidGetRequestError "https://api2.example.com" "i/o timeout") ∧
    (AssertAllFoundationsUp samplePrechecker
        (scriptedHttp [Except.ok respOK, Except.error "i/o timeout"]) sampleErrText
        (sampleEnvironment sampleFoundations true) World.init).2.requests =
      [probeRequest (insecureClient (sampleEnvironment sampleFoundations true))
         "https://api1.example.com",
       probeRequest (insecureClient (sampleEnvironment sampleFoundations true))
         "https://api2.example.com"] :=
  C4_first_transport_failure samplePrechecker
    (scriptedHttp [Except.ok respOK, Except.error "i/o timeout"]) sampleErrText
    (sampleEnvironment sampleFoundations true) World.init 1 (by decide) "i/o timeout"
    (by
      intro j hj
      have hj0 : j = 0 := by omega
      subst hj0
      exact ⟨respOK, rfl, rfl⟩)
    rfl

/-- C5: for a non-empty foundation list in which every GET answers 200,
`AssertAllFoundationsUp` returns `nil`, leaves the emitted events as they were (no call of
`Emit`), and issues exactly one GET per foundation, in list order, each to the foundation
URL followed by "/v2/info". -/
theorem C5_all_foundations_up (p : Prechecker) (http : Http)
    (errText : PrecheckError → String) (environment : Environment) (w : World)
    (hne : environment.Foundations ≠ [])
    (hall : ∀ (j : Nat) (hj : j < environment.Foundations.length), ∃ r : Response,
      http (w.requests.length + j)
        (environment.Foundations.get ⟨j, hj⟩ ++ "/v2/info") = Except.ok r ∧
        r.StatusCode = 200) :
    AssertAllFoundationsUp p http errText environment w =
      (none,
        { requests := w.requests ++ environment.Foundations.map
            (fun foundationURL =>
              { client := insecureClient environment, url := foundationURL ++ "/v2/info" }),
          events := w.events,
          closedBodies := w.closedBodies + environment.Foundations.length }) := by
  have hlen : ¬ environment.Foundations.length = 0 := by
    intro h
    exact hne (List.length_eq_zero.mp h)
  have hrun : AssertAllFoundationsUp p http errText environment w =
      probeFoundations p http errText (insecureClient environment)
        { Environment := environment, Description := "" } environment.Foundations 0 w := by
    simp only [AssertAllFoundationsUp, hlen, if_false]
  have h := probeFoundations_through_healthy p http errText (insecureClient environment)
    { Environment := environment, Description := "" } environment.Foundations [] 0 w hall
  rw [List.append_nil] at h
  rw [hrun, h]
  simp only [probeFoundations, runDeferred, Nat.zero_add]
  rfl

/-- Witness of C5: three foundations, all up. -/
theorem C5_all_foundations_up_witness :
    AssertAllFoundationsUp samplePrechecker (scriptedHttp []) sampleErrText
        (sampleEnvironment sampleFoundations false) World.init =
      (none,
        { requests := World.init.requests ++
            (sampleEnvironment sampleFoundations false).Foundations.map
              (fun foundationURL =>
                { client := insecureClient (sampleEnvironment sampleFoundations false),
                  url := foundationURL ++ "/v2/info" }),
          events := [],
          closedBodies := 0 + 3 }) :=
  C5_all_foundations_up samplePrechecker (scriptedHttp []) sampleErrText
    (sampleEnvironment sampleFoundations false) World.init (by decide)
    (by
      intro j _
      exact ⟨respOK, rfl, rfl⟩)

/-- C6, as stated, fails: in an environment with `SkipSSL = false` the GET is sent with a
client that skips certificate verification, so the flag of the client is not the flag of
the environment. -/
theorem C6_counterexample :
    (sampleEnvironment ["https://api1.example.com"] false).SkipSSL = false ∧
    (AssertAllFoundationsUp samplePrechecker (scriptedHttp []) sampleErrText
        (sampleEnvironment ["https://api1.example.com"] false) World.init).2.requests.map
      (fun r => r.client.Transport.TLSClientConfig.InsecureSkipVerify) = [true] ∧
    ¬ (∀ r ∈ (AssertAllFoundationsUp samplePrechecker (scriptedHttp []) sampleErrText
        (sampleEnvironment ["https://api1.example.com"] false) World.init).2.requests,
      r.client.Transport.TLSClientConfig.InsecureSkipVerify =
        (sampleEnvironment ["https://api1.example.com"] false).SkipSSL) := by
  refine ⟨rfl, rfl, ?_⟩
  intro h
  have h1 := h (probeRequest (insecureClient
    (sampleEnvironment ["https://api1.example.com"] false)) "https://api1.example.com")
    (by
      have hreq : (AssertAllFoundationsUp samplePrechecker (scriptedHttp []) sampleErrText
          (sampleEnvironment ["https://api1.example.com"] false) World.init).2.requests =
          [probeRequest (insecureClient
            (sampleEnvironment ["https://api1.example.com"] false))
            "https://api1.example.com"] := rfl
      rw [hreq]
      exact List.mem_singleton.mpr rfl)
  exact Bool.noConfusion h1

/-- C6, amended: every GET `AssertAllFoundationsUp` issues is sent with a client whose TLS
configuration has `InsecureSkipVerify = true`, whatever the environment's `SkipSSL` flag
is. -/
theorem C6_client_always_skips_verification (p : Prechecker) (http : Http)
    (errText : PrecheckError → String) (environment : Environment) (w : World)
    (r : Request)
    (hr : r ∈ (AssertAllFoundationsUp p http errText environment w).2.requests.drop
      w.requests.length) :
    r.client.Transport.TLSClientConfig.InsecureSkipVerify = true := by
  by_cases hlen : environment.Foundations.length = 0
  · have hrun : (AssertAllFoundationsUp p http errText environment w).2.requests =
        w.requests := by
      simp only [AssertAllFoundationsUp, hlen, if_true, EventManager.Emit]
    rw [hrun, List.drop_length] at hr
    exact absurd hr (List.not_mem_nil r)
  · have hrun : AssertAllFoundationsUp p http errText environment w =
        probeFoundations p http errText (insecureClient environment)
          { Environment := environment, Description := "" } environment.Foundations 0 w := by
      simp only [AssertAllFoundationsUp, hlen, if_false]
    obtain ⟨k, _, hreq⟩ := probeFoundations_requests p http errText
      (insecureClient environment) { Environment := environment, Description := "" }
      environment.Foundations 0 w
    rw [hrun, hreq, List.drop_left] at hr
    obtain ⟨f, _, hf⟩ := List.mem_map.mp hr
    rw [← hf]
    rfl

/-- Witness of C6, amended: an environment with `SkipSSL = false` and one foundation. -/
theorem C6_client_always_skips_verification_witness :
    (probeRequest (insecureClient (sampleEnvironment ["https://api1.example.com"] false))
      "https://api1.example.com").client.Transport.TLSClientConfig.InsecureSkipVerify = true :=
  C6_client_always_skips_verification samplePrechecker (scriptedHttp []) sampleErrText
    (sampleEnvironment ["https://api1.example.com"] false) World.init
    (probeRequest (insecureClient (sampleEnvironment ["https://api1.example.com"] false))
      "https://api1.example.com")
    (by
      have hreq : (AssertAllFoundationsUp samplePrechecker (scriptedHttp []) sampleErrText
          (sampleEnvironment ["https://api1.example.com"] false) World.init).2.requests =
          [probeRequest (insecureClient
            (sampleEnvironment ["https://api1.example.com"] false))
            "https://api1.example.com"] := rfl
      rw [hreq]
      exact List.mem_singleton.mpr rfl)

/-! ## Properties of `Pusher.Push` -/

/-- Unless the rename fails, `Pusher.Push` is the push of the bits and the route mapping,
run in the session reached after the rename step. -/
theorem Push_eq_pushAndMapRoute (courier : Courier) (appPath : String) (appExists : Bool)
    (deploymentInfo : DeploymentInfo) (s : Session)
    (hrename : appExists = true →
      (courier.answer s.calls (CourierCall.Rename deploymentInfo.AppName
        (deploymentInfo.AppName ++ "-venerable"))).2 = none) :
    Pusher.Push courier appPath appExists deploymentInfo s =
      Pusher.pushAndMapRoute courier appPath deploymentInfo
        (sessionBeforePush courier appExists deploymentInfo s) := by
  cases appExists with
  | false => simp [Pusher.Push, sessionBeforePush, Session.logf]
  | true =>
    have h := hrename rfl
    rcases hans : courier.answer s.calls (CourierCall.Rename deploymentInfo.AppName
        (deploymentInfo.AppName ++ "-venerable")) with ⟨renameOutput, renameErr⟩
    rw [hans] at h
    simp only at h
    subst h
    simp [Pusher.Push, Courier.call, hans, sessionBeforePush, Session.logf, Session.write]

/-- The calls recorded in the session before the push are `callsBeforePush`. -/
theorem sessionBeforePush_calls (courier : Courier) (appExists : Bool)
    (deploymentInfo : DeploymentInfo) (s : Session) :
    (sessionBeforePush courier appExists deploymentInfo s).calls =
      callsBeforePush appExists deploymentInfo s := by
  cases appExists <;> rfl

/-- Push fails, the logs cannot be fetched either: both causes are in the error. -/
theorem pushAndMapRoute_push_logs_fail (courier : Courier) (appPath : String)
    (deploymentInfo : DeploymentInfo) (s : Session) (pushOutput pushErr logs logsErr : String)
    (hpush : courier.answer s.calls (CourierCall.Push deploymentInfo.AppName appPath
      deploymentInfo.Instances) = (pushOutput, some pushErr))
    (hlogs : courier.answer (s.calls ++ [CourierCall.Push deploymentInfo.AppName appPath
      deploymentInfo.Instances]) (CourierCall.Logs deploymentInfo.AppName) =
        (logs, some logsErr)) :
    Pusher.pushAndMapRoute courier appPath deploymentInfo s =
      (some (pushErr ++ ": cannot get Cloud Foundry logs: " ++ logsErr),
        { calls := s.calls ++ [CourierCall.Push deploymentInfo.AppName appPath
            deploymentInfo.Instances] ++ [CourierCall.Logs deploymentInfo.AppName],
          response := s.response ++ pushOutput ++ logs,
          log := s.log ++
            ["pushing app " ++ deploymentInfo.AppName ++ " to " ++ deploymentInfo.Domain] ++
            ["tempdir for app " ++ deploymentInfo.AppName ++ ": " ++ appPath] }) := by
  simp only [Pusher.pushAndMapRoute, Courier.call, Session.logf, Session.write, hpush, hlogs]

/-- Push fails, the logs are fetched: the push error alone is returned and the logs are
in the response. -/
theorem pushAndMapRoute_push_fail (courier : Courier) (appPath : String)
    (deploymentInfo : DeploymentInfo) (s : Session) (pushOutput pushErr logs : String)
    (hpush : courier.answer s.calls (CourierCall.Push deploymentInfo.AppName appPath
      deploymentInfo.Instances) = (pushOutput, some pushErr))
    (hlogs : courier.answer (s.calls ++ [CourierCall.Push deploymentInfo.AppName appPath
      deploymentInfo.Instances]) (CourierCall.Logs deploymentInfo.AppName) = (logs, none)) :
    Pusher.pushAndMapRoute courier appPath deploymentInfo s =
      (some pushErr,
        { calls := s.calls ++ [CourierCall.Push deploymentInfo.AppName appPath
            deploymentInfo.Instances] ++ [CourierCall.Logs deploymentInfo.AppName],
          response := s.response ++ pushOutput ++ logs,
          log := s.log ++
            ["pushing app " ++ deploymentInfo.AppName ++ " to " ++ deploymentInfo.Domain] ++
            ["tempdir for app " ++ deploymentInfo.AppName ++ ": " ++ appPath] }) := by
  simp only [Pusher.pushAndMapRoute, Courier.call, Session.logf, Session.write, hpush, hlogs]

/-- Push succeeds, the route mapping fails, the logs are fetched: the mapping error alone
is returned and the logs are in the response. -/
theorem pushAndMapRoute_map_fail (courier : Courier) (appPath : String)
    (deploymentInfo : DeploymentInfo) (s : Session)
    (pushOutput mapRouteOutput mapErr logs : String)
    (hpush : courier.answer s.calls (CourierCall.Push deploymentInfo.AppName appPath
      deploymentInfo.Instances) = (pushOutput, none))
    (hmap : courier.answer (s.calls ++ [CourierCall.Push deploymentInfo.AppName appPath
      deploymentInfo.Instances])
      (CourierCall.MapRoute deploymentInfo.AppName deploymentInfo.Domain) =
        (mapRouteOutput, some mapErr))
    (hlogs : courier.answer (s.calls ++ [CourierCall.Push deploymentInfo.AppName appPath
      deploymentInfo.Instances] ++
      [CourierCall.MapRoute deploymentInfo.AppName deploymentInfo.Domain])
      (CourierCall.Logs deploymentInfo.AppName) = (logs, none)) :
    Pusher.pushAndMapRoute courier appPath deploymentInfo s =
      (some mapErr,
        { calls := s.calls ++ [CourierCall.Push deploymentInfo.AppName appPath
            deploymentInfo.Instances] ++
            [CourierCall.MapRoute deploymentInfo.AppName deploymentInfo.Domain] ++
            [CourierCall.Logs deploymentInfo.AppName],
          response := s.response ++ pushOutput ++ mapRouteOutput ++ logs,
          log := s.log ++
            ["pushing app " ++ deploymentInfo.AppName ++ " to " ++ deploymentInfo.Domain] ++
            ["tempdir for app " ++ deploymentInfo.AppName ++ ": " ++ appPath] ++
            ["mapping route for " ++ deploymentInfo.AppName ++ " to " ++
              deploymentInfo.Domain] }) := by
  simp only [Pusher.pushAndMapRoute, Courier.call, Session.logf, Session.write, hpush, hmap,
    hlogs]

/-- Push succeeds, the route mapping fails and the logs cannot be fetched: the error
returned is the one of the log retrieval. -/
theorem pushAndMapRoute_map_logs_fail (courier : Courier) (appPath : String)
    (deploymentInfo : DeploymentInfo) (s : Session)
    (pushOutput mapRouteOutput mapErr logs logsErr : String)
    (hpush : courier.answer s.calls (CourierCall.Push deploymentInfo.AppName appPath
      deploymentInfo.Instances) = (pushOutput, none))
    (hmap : courier.answer (s.calls ++ [CourierCall.Push deploymentInfo.AppName appPath
      deploymentInfo.Instances])
      (CourierCall.MapRoute deploymentInfo.AppName deploymentInfo.Domain) =
        (mapRouteOutput, some mapErr))
    (hlogs : courier.answer (s.calls ++ [CourierCall.Push deploymentInfo.AppName appPath
      deploymentInfo.Instances] ++
      [CourierCall.MapRoute deploymentInfo.AppName deploymentInfo.Domain])
      (CourierCall.Logs deploymentInfo.AppName) = (logs, some logsErr)) :
    Pusher.pushAndMapRoute courier appPath deploymentInfo s =
      (some ("cannot get Cloud Foundry logs: " ++ logsErr),
        { calls := s.calls ++ [CourierCall.Push deploymentInfo.AppName appPath
            deploymentInfo.Instances] ++
            [CourierCall.MapRoute deploymentInfo.AppName deploymentInfo.Domain] ++
            [CourierCall.Logs deploymentInfo.AppName],
          response := s.response ++ pushOutput ++ mapRouteOutput ++ logs,
          log := s.log ++
            ["pushing app " ++ deploymentInfo.AppName ++ " to " ++ deploymentInfo.Domain] ++
            ["tempdir for app " ++ deploymentInfo.AppName ++ ": " ++ appPath] ++
            ["mapping route for " ++ deploymentInfo.AppName ++ " to " ++
              deploymentInfo.Domain] }) := by
  simp only [Pusher.pushAndMapRoute, Courier.call, Session.logf, Session.write, hpush, hmap,
    hlogs]

/-- Push and route mapping both succeed: no error, both outputs are in the response. -/
theorem pushAndMapRoute_ok (courier : Courier) (appPath : String)
    (deploymentInfo : DeploymentInfo) (s : Session) (pushOutput mapRouteOutput : String)
    (hpush : courier.answer s.calls (CourierCall.Push deploymentInfo.AppName appPath
      deploymentInfo.Instances) = (pushOutput, none))
    (hmap : courier.answer (s.calls ++ [CourierCall.Push deploymentInfo.AppName appPath
      deploymentInfo.Instances])
      (CourierCall.MapRoute deploymentInfo.AppName deploymentInfo.Domain) =
        (mapRouteOutput, none)) :
    Pusher.pushAndMapRoute courier appPath deploymentInfo s =
      (none,
        { calls := s.calls ++ [CourierCall.Push deploymentInfo.AppName appPath
            deploymentInfo.Instances] ++
            [CourierCall.MapRoute deploymentInfo.AppName deploymentInfo.Domain],
          response := s.response ++ pushOutput ++ mapRouteOutput,
          log := s.log ++
            ["pushing app " ++ deploymentInfo.AppName ++ " to " ++ deploymentInfo.Domain] ++
            ["tempdir for app " ++ deploymentInfo.AppName ++ ": " ++ appPath] ++
            ["mapping route for " ++ deploymentInfo.AppName ++ " to " ++
              deploymentInfo.Domain] }) := by
  simp only [Pusher.pushAndMapRoute, Courier.call, Session.logf, Session.write, hpush, hmap]

/-- Whatever the Courier answers, the push of the bits and the route mapping start with
the call `Push(appName, appPath, instances)`, never rename, and only add to the log. -/
theorem pushAndMapRoute_calls (courier : Courier) (appPath : String)
    (deploymentInfo : DeploymentInfo) (s : Session) :
    ∃ (rest : List CourierCall) (more : List String),
      (Pusher.pushAndMapRoute courier appPath deploymentInfo s).2.calls =
        s.calls ++ CourierCall.Push deploymentInfo.AppName appPath
          deploymentInfo.Instances :: rest ∧
      (∀ k ∈ rest, k.isRename = false) ∧
      (Pusher.pushAndMapRoute courier appPath deploymentInfo s).2.log = s.log ++ more := by
  rcases hpush : courier.answer s.calls (CourierCall.Push deploymentInfo.AppName appPath
      deploymentInfo.Instances) with ⟨pushOutput, _ | pushErr⟩
  · rcases hmap : courier.answer (s.calls ++ [CourierCall.Push deploymentInfo.AppName appPath
        deploymentInfo.Instances])
        (CourierCall.MapRoute deploymentInfo.AppName deploymentInfo.Domain)
      with ⟨mapRouteOutput, _ | mapErr⟩
    · rw [pushAndMapRoute_ok courier appPath deploymentInfo s _ _ hpush hmap]
      exact ⟨[CourierCall.MapRoute deploymentInfo.AppName deploymentInfo.Domain],
        ["pushing app " ++ deploymentInfo.AppName ++ " to " ++ deploymentInfo.Domain,
         "tempdir for app " ++ deploymentInfo.AppName ++ ": " ++ appPath,
         "mapping route for " ++ deploymentInfo.AppName ++ " to " ++ deploymentInfo.Domain],
        by simp, by simp [CourierCall.isRename], by simp⟩
    · rcases hlogs : courier.answer (s.calls ++ [CourierCall.Push deploymentInfo.AppName
          appPath deploymentInfo.Instances] ++
          [CourierCall.MapRoute deploymentInfo.AppName deploymentInfo.Domain])
          (CourierCall.Logs deploymentInfo.AppName) with ⟨logs, _ | logsErr⟩
      · rw [pushAndMapRoute_map_fail courier appPath deploymentInfo s _ _ _ _ hpush hmap hlogs]
        exact ⟨[CourierCall.MapRoute deploymentInfo.AppName deploymentInfo.Domain,
          CourierCall.Logs deploymentInfo.AppName],
          ["pushing app " ++ deploymentInfo.AppName ++ " to " ++ deploymentInfo.Domain,
           "tempdir for app " ++ deploymentInfo.AppName ++ ": " ++ appPath,
           "mapping route for " ++ deploymentInfo.AppName ++ " to " ++ deploymentInfo.Domain],
          by simp, by simp [CourierCall.isRename], by simp⟩
      · rw [pushAndMapRoute_map_logs_fail courier appPath deploymentInfo s _ _ _ _ _
          hpush hmap hlogs]
        exact ⟨[CourierCall.MapRoute deploymentInfo.AppName deploymentInfo.Domain,
          CourierCall.Logs deploymentInfo.AppName],
          ["pushing app " ++ deploymentInfo.AppName ++ " to " ++ deploymentInfo.Domain,
           "tempdir for app " ++ deploymentInfo.AppName ++ ": " ++ appPath,
           "mapping route for " ++ deploymentInfo.AppName ++ " to " ++ deploymentInfo.Domain],
          by simp, by simp [CourierCall.isRename], by simp⟩
  · rcases hlogs : courier.answer (s.calls ++ [CourierCall.Push deploymentInfo.AppName
        appPath deploymentInfo.Instances])
        (CourierCall.Logs deploymentInfo.AppName) with ⟨logs, _ | logsErr⟩
    · rw [pushAndMapRoute_push_fail courier appPath deploymentInfo s _ _ _ hpush hlogs]
      exact ⟨[CourierCall.Logs deploymentInfo.AppName],
        ["pushing app " ++ deploymentInfo.AppName ++ " to " ++ deploymentInfo.Domain,
         "tempdir for app " ++ deploymentInfo.AppName ++ ": " ++ appPath],
        by simp, by simp [CourierCall.isRename], by simp⟩
    · rw [pushAndMapRoute_push_logs_fail courier appPath deploymentInfo s _ _ _ _ hpush hlogs]
      exact ⟨[CourierCall.Logs deploymentInfo.AppName],
        ["pushing app " ++ deploymentInfo.AppName ++ " to " ++ deploymentInfo.Domain,
         "tempdir for app " ++ deploymentInfo.AppName ++ ": " ++ appPath],
        by simp, by simp [CourierCall.isRename], by simp⟩

/-- C7: with `appExists = true` the first call `Pusher.Push` makes on the Courier is
`Rename(appName, appName + "-venerable")` and, the rename having succeeded, the next one is
`Push(appName, appPath, instances)`, so the rename comes strictly before the push; with
`appExists = false` the first call is `Push(appName, appPath, instances)`, no call is a
`Rename`, and "new app detected" is logged. -/
theorem C7_rename_strictly_before_push (courier : Courier) (appPath : String)
    (deploymentInfo : DeploymentInfo) (s : Session) :
    (∃ rest : List CourierCall,
      (Pusher.Push courier appPath true deploymentInfo s).2.calls =
        s.calls ++ CourierCall.Rename deploymentInfo.AppName
          (deploymentInfo.AppName ++ "-venerable") :: rest ∧
      ((courier.answer s.calls (CourierCall.Rename deploymentInfo.AppName
          (deploymentInfo.AppName ++ "-venerable"))).2 = none →
        ∃ rest2 : List CourierCall,
          rest = CourierCall.Push deploymentInfo.AppName appPath
            deploymentInfo.Instances :: rest2 ∧
          ∀ k ∈ rest2, k.isRename = false)) ∧
    (∃ rest : List CourierCall,
      (Pusher.Push courier appPath false deploymentInfo s).2.calls =
        s.calls ++ CourierCall.Push deploymentInfo.AppName appPath
          deploymentInfo.Instances :: rest ∧
      ∀ k ∈ rest, k.isRename = false) ∧
    "new app detected" ∈
      (Pusher.Push courier appPath false deploymentInfo s).2.log.drop s.log.length := by
  refine ⟨?_, ?_, ?_⟩
  · rcases hans : courier.answer s.calls (CourierCall.Rename deploymentInfo.AppName
        (deploymentInfo.AppName ++ "-venerable")) with ⟨renameOutput, _ | renameErr⟩
    · have hrun := Push_eq_pushAndMapRoute courier appPath true deploymentInfo s
        (by intro _; rw [hans])
      obtain ⟨rest2, more, hcalls, hno, _⟩ := pushAndMapRoute_calls courier appPath
        deploymentInfo (sessionBeforePush courier true deploymentInfo s)
      refine ⟨CourierCall.Push deploymentInfo.AppName appPath
        deploymentInfo.Instances :: rest2, ?_, ?_⟩
      · rw [hrun, hcalls]
        simp [sessionBeforePush]
      · intro _
        exact ⟨rest2, rfl, hno⟩
    · refine ⟨[], ?_, ?_⟩
      · simp [Pusher.Push, Courier.call, hans, Session.write]
      · intro h
        simp at h
  · have hrun := Push_eq_pushAndMapRoute courier appPath false deploymentInfo s
      (by intro h; exact absurd h (by decide))
    obtain ⟨rest, more, hcalls, hno, _⟩ := pushAndMapRoute_calls courier appPath
      deploymentInfo (sessionBeforePush courier false deploymentInfo s)
    refine ⟨rest, ?_, hno⟩
    rw [hrun, hcalls]
    simp [sessionBeforePush]
  · have hrun := Push_eq_pushAndMapRoute courier appPath false deploymentInfo s
      (by intro h; exact absurd h (by decide))
    obtain ⟨rest, more, _, _, hlog⟩ := pushAndMapRoute_calls courier appPath
      deploymentInfo (sessionBeforePush courier false deploymentInfo s)
    rw [hrun, hlog]
    simp [sessionBeforePush]

/-- Witness of C7: the app exists and the rename succeeds; the calls start with the
rename, then the push. -/
theorem C7_rename_strictly_before_push_witness :
    ∃ rest2 : List CourierCall,
      (Pusher.Push (scriptedCourier ("", none) ("", none) ("", none) ("", none))
        "/tmp/myapp" true sampleDeployment Session.init).2.calls =
      CourierCall.Rename "myapp" "myapp-venerable" ::
        CourierCall.Push "myapp" "/tmp/myapp" 3 :: rest2 := by
  obtain ⟨rest, hcalls, hnext⟩ := (C7_rename_strictly_before_push
    (scriptedCourier ("", none) ("", none) ("", none) ("", none))
    "/tmp/myapp" sampleDeployment Session.init).1
  obtain ⟨rest2, hrest, _⟩ := hnext rfl
  refine ⟨rest2, ?_⟩
  rw [hcalls, hrest]
  rfl

/-- C8: with `appExists = true`, if `Rename(appName, appName + "-venerable")` fails,
`Pusher.Push` returns the error whose text is the rename output, ": " and the cause, and
the rename is the only call it makes on the Courier: neither `Push` nor `MapRoute` is
called. -/
theorem C8_rename_failure_aborts (courier : Courier) (appPath : String)
    (deploymentInfo : DeploymentInfo) (s : Session) (renameOutput cause : String)
    (hfail : courier.answer s.calls (CourierCall.Rename deploymentInfo.AppName
      (deploymentInfo.AppName ++ "-venerable")) = (renameOutput, some cause)) :
    (Pusher.Push courier appPath true deploymentInfo s).1 =
        some (renameOutput ++ ": " ++ cause) ∧
      (Pusher.Push courier appPath true deploymentInfo s).2.calls =
        s.calls ++ [CourierCall.Rename deploymentInfo.AppName
          (deploymentInfo.AppName ++ "-venerable")] ∧
      ((Pusher.Push courier appPath true deploymentInfo s).2.calls.drop s.calls.length).all
        (fun k => !k.isPush && !k.isMapRoute) = true := by
  have hrun : Pusher.Push courier appPath true deploymentInfo s =
      (some (renameOutput ++ ": " ++ cause),
        { calls := s.calls ++ [CourierCall.Rename deploymentInfo.AppName
            (deploymentInfo.AppName ++ "-venerable")],
          response := s.response ++ renameOutput,
          log := s.log }) := by
    simp only [Pusher.Push, Courier.call, hfail, Session.write, if_true]
  rw [hrun]
  refine ⟨rfl, rfl, ?_⟩
  simp [CourierCall.isPush, CourierCall.isMapRoute]

/-- Witness of C8: the rename answers "rename failed" with the cause "bork"; the error
is "rename failed: bork". -/
theorem C8_rename_failure_aborts_witness :
    (Pusher.Push (scriptedCourier ("rename failed", some "bork") ("", none) ("", none)
        ("", none)) "/tmp/myapp" true sampleDeployment Session.init).1 =
      some ("rename failed" ++ ": " ++ "bork") ∧
    (Pusher.Push (scriptedCourier ("rename failed", some "bork") ("", none) ("", none)
        ("", none)) "/tmp/myapp" true sampleDeployment Session.init).2.calls =
      Session.init.calls ++ [CourierCall.Rename sampleDeployment.AppName
        (sampleDeployment.AppName ++ "-venerable")] ∧
    ((Pusher.Push (scriptedCourier ("rename failed", some "bork") ("", none) ("", none)
        ("", none)) "/tmp/myapp" true sampleDeployment Session.init).2.calls.drop
        Session.init.calls.length).all
      (fun k => !k.isPush && !k.isMapRoute) = true :=
  C8_rename_failure_aborts (scriptedCourier ("rename failed", some "bork") ("", none)
    ("", none) ("", none)) "/tmp/myapp" sampleDeployment Session.init "rename failed" "bork"
    rfl

/-- C9, as stated, fails: after a failed push ("push error") and a failed log retrieval
("logs error") the error text is "push error: cannot get Cloud Foundry logs: logs error",
which does not end with "cannot get logs: logs error". -/
theorem C9_counterexample :
    (Pusher.Push (scriptedCourier ("", none) ("", some "push error") ("", none)
        ("", some "logs error")) "/tmp/myapp" false sampleDeployment Session.init).1 =
      some "push error: cannot get Cloud Foundry logs: logs error" ∧
    ¬ ("cannot get logs: logs error".data <:+
        "push error: cannot get Cloud Foundry logs: logs error".data) := by
  refine ⟨by decide, by decide⟩

/-- C9, amended: when `Courier.Push` fails and `Courier.Logs` fails too, the error
`Pusher.Push` returns is the push failure message followed by
": cannot get Cloud Foundry logs: " and the log error; when `Courier.Push` fails and
`Courier.Logs` succeeds, the returned error is the push failure alone and the log output
is appended to the response stream, after the push output. -/
theorem C9_push_failure_and_logs (courier : Courier) (appPath : String) (appExists : Bool)
    (deploymentInfo : DeploymentInfo) (s : Session) (pushOutput pushErr logs : String)
    (hrename : appExists = true →
      (courier.answer s.calls (CourierCall.Rename deploymentInfo.AppName
        (deploymentInfo.AppName ++ "-venerable"))).2 = none)
    (hpush : courier.answer (callsBeforePush appExists deploymentInfo s)
      (CourierCall.Push deploymentInfo.AppName appPath deploymentInfo.Instances) =
        (pushOutput, some pushErr)) :
    (∀ logsErr : String,
      courier.answer (callsBeforePush appExists deploymentInfo s ++
        [CourierCall.Push deploymentInfo.AppName appPath deploymentInfo.Instances])
        (CourierCall.Logs deploymentInfo.AppName) = (logs, some logsErr) →
      (Pusher.Push courier appPath appExists deploymentInfo s).1 =
        some (pushErr ++ ": cannot get Cloud Foundry logs: " ++ logsErr)) ∧
    (courier.answer (callsBeforePush appExists deploymentInfo s ++
        [CourierCall.Push deploymentInfo.AppName appPath deploymentInfo.Instances])
        (CourierCall.Logs deploymentInfo.AppName) = (logs, none) →
      (Pusher.Push courier appPath appExists deploymentInfo s).1 = some pushErr ∧
      (Pusher.Push courier appPath appExists deploymentInfo s).2.response =
        (sessionBeforePush courier appExists deploymentInfo s).response ++
          pushOutput ++ logs) := by
  have hrun := Push_eq_pushAndMapRoute courier appPath appExists deploymentInfo s hrename
  have hcalls := sessionBeforePush_calls courier appExists deploymentInfo s
  refine ⟨?_, ?_⟩
  · intro logsErr hlogs
    rw [hrun, pushAndMapRoute_push_logs_fail courier appPath deploymentInfo
      (sessionBeforePush courier appExists deploymentInfo s) pushOutput pushErr logs logsErr
      (by rw [hcalls]; exact hpush) (by rw [hcalls]; exact hlogs)]
  · intro hlogs
    rw [hrun, pushAndMapRoute_push_fail courier appPath deploymentInfo
      (sessionBeforePush courier appExists deploymentInfo s) pushOutput pushErr logs
      (by rw [hcalls]; exact hpush) (by rw [hcalls]; exact hlogs)]
    exact ⟨rfl, rfl⟩

/-- Witness of C9, amended: a new app whose push fails, once with the logs failing too
and once with the logs "cf logs" fetched. -/
theorem C9_push_failure_and_logs_witness :
    (Pusher.Push (scriptedCourier ("", none) ("", some "push error") ("", none)
        ("", some "logs error")) "/tmp/myapp" false sampleDeployment Session.init).1 =
      some ("push error" ++ ": cannot get Cloud Foundry logs: " ++ "logs error") ∧
    ((Pusher.Push (scriptedCourier ("", none) ("pushing", some "push error") ("", none)
        ("cf logs", none)) "/tmp/myapp" false sampleDeployment Session.init).1 =
      some "push error" ∧
    (Pusher.Push (scriptedCourier ("", none) ("pushing", some "push error") ("", none)
        ("cf logs", none)) "/tmp/myapp" false sampleDeployment Session.init).2.response =
      (sessionBeforePush (scriptedCourier ("", none) ("pushing", some "push error")
        ("", none) ("cf logs", none)) false sampleDeployment Session.init).response ++
        "pushing" ++ "cf logs") :=
  ⟨(C9_push_failure_and_logs (scriptedCourier ("", none) ("", some "push error") ("", none)
      ("", some "logs error")) "/tmp/myapp" false sampleDeployment Session.init
      "" "push error" "" (by intro h; exact absurd h (by decide)) rfl).1 "logs error" rfl,
   (C9_push_failure_and_logs (scriptedCourier ("", none) ("pushing", some "push error")
      ("", none) ("cf logs", none)) "/tmp/myapp" false sampleDeployment Session.init
      "pushing" "push error" "cf logs" (by intro h; exact absurd h (by decide)) rfl).2 rfl⟩

/-- C10, evaluated where it fails: the push succeeds, the route mapping fails with "map
route failed" and the log retrieval fails with "logs error"; `Pusher.Push` has called
`Push`, `MapRoute` and `Logs`, and the error it returns is
"cannot get Cloud Foundry logs: logs error", in which "map route failed" does not
occur. -/
theorem C10_map_route_error_dropped :
    (Pusher.Push (scriptedCourier ("", none) ("", none) ("", some "map route failed")
        ("", some "logs error")) "/tmp/myapp" false sampleDeployment Session.init).1 =
      some "cannot get Cloud Foundry logs: logs error" ∧
    (Pusher.Push (scriptedCourier ("", none) ("", none) ("", some "map route failed")
        ("", some "logs error")) "/tmp/myapp" false sampleDeployment Session.init).2.calls =
      [CourierCall.Push "myapp" "/tmp/myapp" 3,
       CourierCall.MapRoute "myapp" "test.example.com",
       CourierCall.Logs "myapp"] ∧
    ¬ ("map route failed".data <:+: "cannot get Cloud Foundry logs: logs error".data) := by
  refine ⟨by decide, by decide, by decide⟩

/-! ## Properties of `Pusher.Rollback` and `Pusher.Login` -/

/-- C11: `Pusher.Rollback` with `appExisted = true` calls `Courier.Delete(appName)` and then
`Courier.Rename(appName + "-venerable", appName)`, in that order and nothing else, and
returns no error when both succeed. -/
theorem C11_rollback_deletes_then_renames (courier : Courier)
    (joinErrors : String → String → String) (deploymentInfo : DeploymentInfo) (s : Session) :
    (Pusher.Rollback courier joinErrors true deploymentInfo s).2.calls =
        s.calls ++ [CourierCall.Delete deploymentInfo.AppName,
          CourierCall.Rename (deploymentInfo.AppName ++ "-venerable")
            deploymentInfo.AppName] ∧
      ((courier.answer s.calls (CourierCall.Delete deploymentInfo.AppName)).2 = none →
        (courier.answer (s.calls ++ [CourierCall.Delete deploymentInfo.AppName])
          (CourierCall.Rename (deploymentInfo.AppName ++ "-venerable")
            deploymentInfo.AppName)).2 = none →
        (Pusher.Rollback courier joinErrors true deploymentInfo s).1 = none) := by
  rcases hdel : courier.answer s.calls (CourierCall.Delete deploymentInfo.AppName)
    with ⟨deleteOutput, _ | deleteErr⟩ <;>
  rcases hren : courier.answer (s.calls ++ [CourierCall.Delete deploymentInfo.AppName])
      (CourierCall.Rename (deploymentInfo.AppName ++ "-venerable") deploymentInfo.AppName)
    with ⟨renameOutput, _ | renameErr⟩ <;>
  simp [Pusher.Rollback, Courier.call, Session.logf, hdel, hren]

/-- Witness of C11: delete and rename both succeed; the rollback returns no error. -/
theorem C11_rollback_deletes_then_renames_witness :
    (Pusher.Rollback (scriptedCourier2 ("", none) ("", none) ("", none)) sampleJoinErrors
        true sampleDeployment Session.init).1 = none ∧
    (Pusher.Rollback (scriptedCourier2 ("", none) ("", none) ("", none)) sampleJoinErrors
        true sampleDeployment Session.init).2.calls =
      [CourierCall.Delete "myapp", CourierCall.Rename "myapp-venerable" "myapp"] :=
  ⟨(C11_rollback_deletes_then_renames (scriptedCourier2 ("", none) ("", none) ("", none))
      sampleJoinErrors sampleDeployment Session.init).2 rfl rfl,
   (C11_rollback_deletes_then_renames (scriptedCourier2 ("", none) ("", none) ("", none))
      sampleJoinErrors sampleDeployment Session.init).1⟩

/-- C12: `Pusher.Login` calls `Courier.Login` with the foundation URL and the username,
password, org, space and skip-SSL flag of the deployment, unchanged; it writes the
Courier's output to the response stream whether the login succeeds or fails; on failure
it returns the error "cannot login to <foundationURL>: <cause>", and no error on
success. -/
theorem C12_login_output_and_error (courier : Courier) (foundationURL : String)
    (deploymentInfo : DeploymentInfo) (s : Session) :
    (Pusher.Login courier foundationURL deploymentInfo s).2.calls =
        s.calls ++ [CourierCall.Login foundationURL deploymentInfo.Username
          deploymentInfo.Password deploymentInfo.Org deploymentInfo.Space
          deploymentInfo.SkipSSL] ∧
      (Pusher.Login courier foundationURL deploymentInfo s).2.response =
        s.response ++ (courier.answer s.calls (CourierCall.Login foundationURL
          deploymentInfo.Username deploymentInfo.Password deploymentInfo.Org
          deploymentInfo.Space deploymentInfo.SkipSSL)).1 ∧
      (Pusher.Login courier foundationURL deploymentInfo s).1 =
        (courier.answer s.calls (CourierCall.Login foundationURL
          deploymentInfo.Username deploymentInfo.Password deploymentInfo.Org
          deploymentInfo.Space deploymentInfo.SkipSSL)).2.map
            (fun cause => "cannot login to " ++ foundationURL ++ ": " ++ cause) := by
  rcases hlogin : courier.answer s.calls (CourierCall.Login foundationURL
      deploymentInfo.Username deploymentInfo.Password deploymentInfo.Org
      deploymentInfo.Space deploymentInfo.SkipSSL) with ⟨loginOutput, _ | cause⟩ <;>
  simp [Pusher.Login, Courier.call, Session.write, hlogin]

/-! ## Properties of the configuration loading -/

/-- C13: loading normalizes the instance count of an environment to 1 when it is 0 or not
given, and leaves a positive count unchanged; normalizing twice is normalizing once, and
the loaded count is at least 1. -/
theorem C13_instances_normalized (y : EnvironmentYaml) (n : Nat) :
    ((y.instances = none ∨ y.instances = some 0) → (loadEnvironment y).Instances = 1) ∧
      (0 < n → y.instances = some n → (loadEnvironment y).Instances = n) ∧
      normalizeInstances (normalizeInstances n) = normalizeInstances n ∧
      1 ≤ normalizeInstances n ∧
      1 ≤ (loadEnvironment y).Instances := by
  refine ⟨?_, ?_, ?_, ?_, ?_⟩
  · rintro (h | h) <;> simp [loadEnvironment, normalizeInstances, h]
  · intro hn h
    have hn0 : n ≠ 0 := by omega
    simp [loadEnvironment, normalizeInstances, h, hn0]
  · unfold normalizeInstances
    split_ifs <;> simp_all
  · unfold normalizeInstances
    split_ifs <;> omega
  · simp only [loadEnvironment]
    unfold normalizeInstances
    split_ifs <;> omega

/-- Witness of C13: the entry `production` of `config_test.go`, with `instances: 0`, is
loaded with one instance; an entry with `instances: 3` keeps its three. -/
theorem C13_instances_normalized_witness :
    (loadEnvironment productionYaml).Instances = 1 ∧
    (loadEnvironment { productionYaml with instances := some 3 }).Instances = 3 :=
  ⟨(C13_instances_normalized productionYaml 0).1 (Or.inr rfl),
   (C13_instances_normalized { productionYaml with instances := some 3 } 3).2.1
     (by decide) rfl⟩

/-! ## `AssertAllFoundationsUp` and the result of `Emit` -/

/-- The loop does the same whatever the event manager returns from `Emit`. -/
theorem probeFoundations_emit_irrelevant (p₁ p₂ : Prechecker) (http : Http)
    (errText : PrecheckError → String) (client : Client) (data : PrecheckerEventData)
    (fs : List String) :
    ∀ (deferred : Nat) (w : World),
      probeFoundations p₁ http errText client data fs deferred w =
        probeFoundations p₂ http errText client data fs deferred w := by
  induction fs with
  | nil => intro deferred w; rfl
  | cons f fs ih =>
    intro deferred w
    cases hget : http w.requests.length (f ++ "/v2/info") with
    | error e => simp [probeFoundations, Client.Get, hget]
    | ok resp =>
      by_cases hcode : resp.StatusCode = StatusOK
      · simp only [probeFoundations, Client.Get, hget, hcode, ne_eq, not_true_eq_false,
          if_false]
        exact ih _ _
      · simp [probeFoundations, Client.Get, hget, hcode, EventManager.Emit]

/-- The loop emits at most one event. -/
theorem probeFoundations_events (p : Prechecker) (http : Http)
    (errText : PrecheckError → String) (client : Client) (data : PrecheckerEventData)
    (fs : List String) :
    ∀ (deferred : Nat) (w : World),
      (probeFoundations p http errText client data fs deferred w).2.events.length ≤
        w.events.length + 1 := by
  induction fs with
  | nil => intro deferred w; simp [probeFoundations, runDeferred]
  | cons f fs ih =>
    intro deferred w
    cases hget : http w.requests.length (f ++ "/v2/info") with
    | error e => simp [probeFoundations, Client.Get, hget, runDeferred]
    | ok resp =>
      by_cases hcode : resp.StatusCode = StatusOK
      · simp only [probeFoundations, Client.Get, hget, hcode, ne_eq, not_true_eq_false,
          if_false]
        exact ih _ _
      · simp [probeFoundations, Client.Get, hget, hcode, EventManager.Emit, runDeferred]

/-- C17: the result of `AssertAllFoundationsUp` does not depend on what `Emit` returns: two
precheckers, whose event managers can differ in nothing but the errors `Emit` returns,
give the same returned error (and leave the same world) for every environment and every
network; and a run emits at most one event. -/
theorem C17_emit_return_ignored (p₁ p₂ : Prechecker) (http : Http)
    (errText : PrecheckError → String) (environment : Environment) (w : World) :
    (AssertAllFoundationsUp p₁ http errText environment w).1 =
        (AssertAllFoundationsUp p₂ http errText environment w).1 ∧
      (AssertAllFoundationsUp p₁ http errText environment w).2 =
        (AssertAllFoundationsUp p₂ http errText environment w).2 ∧
      (AssertAllFoundationsUp p₁ http errText environment w).2.events.length ≤
        w.events.length + 1 := by
  have heq : AssertAllFoundationsUp p₁ http errText environment w =
      AssertAllFoundationsUp p₂ http errText environment w := by
    by_cases hlen : environment.Foundations.length = 0
    · simp [AssertAllFoundationsUp, hlen, EventManager.Emit]
    · simp only [AssertAllFoundationsUp, hlen, if_false]
      exact probeFoundations_emit_irrelevant p₁ p₂ http errText _ _ _ _ _
  refine ⟨by rw [heq], by rw [heq], ?_⟩
  by_cases hlen : environment.Foundations.length = 0
  · simp [AssertAllFoundationsUp, hlen, EventManager.Emit]
  · simp only [AssertAllFoundationsUp, hlen, if_false]
    exact probeFoundations_events p₁ http errText _ _ _ _ _

/-! ## Properties of the orchestrator -/

/-- The task of a foundation ends without error exactly when its login and its push
succeed. -/
theorem taskFailure_eq_none_iff (appPath : String) (deploymentInfo : DeploymentInfo)
    (fp : String × BoundPusher) :
    taskFailure appPath deploymentInfo fp = none ↔ fp.2.Login = none ∧ fp.2.Push = none := by
  rcases hlogin : fp.2.Login with _ | err
  · simp [taskFailure, foundationTask, hlogin]
  · simp [taskFailure, foundationTask, hlogin]

/-- The failure of a task is the login error or else the push error, with the URL of the
foundation. -/
theorem taskFailure_eq (appPath : String) (deploymentInfo : DeploymentInfo)
    (fp : String × BoundPusher) :
    taskFailure appPath deploymentInfo fp =
      (fp.2.Login <|> fp.2.Push).map (fun cause => (fp.1, cause)) := by
  rcases hlogin : fp.2.Login with _ | err <;>
  simp [taskFailure, foundationTask, hlogin]

/-- The failure of a rollback is the error of `Rollback` on a foundation whose task called
`Push` for an app that exists. -/
theorem rollbackFailure_eq (appPath : String) (deploymentInfo : DeploymentInfo)
    (fp : String × BoundPusher) :
    rollbackFailure appPath deploymentInfo fp =
      if fp.2.Login = none ∧ fp.2.Exists = true
        then fp.2.Rollback.map (fun cause => (fp.1, cause)) else none := by
  rcases hlogin : fp.2.Login with _ | err <;> rcases hex : fp.2.Exists <;>
  simp [rollbackFailure, foundationTask, hlogin, hex]

/-- The commit branch on a foundation whose login and push succeeded: the five calls, in
order, with DeleteVenerable once, CleanUp once and no Rollback. -/
theorem commitRun_calls (appPath : String) (deploymentInfo : DeploymentInfo)
    (fp : String × BoundPusher) (hlogin : fp.2.Login = none) (hpush : fp.2.Push = none) :
    (commitRun appPath deploymentInfo fp).foundationURL = fp.1 ∧
      (commitRun appPath deploymentInfo fp).calls =
        [(PusherOp.Login fp.1, none), (PusherOp.Exists deploymentInfo.AppName, none),
         (PusherOp.Push appPath fp.2.Exists, none),
         (PusherOp.DeleteVenerable fp.1, fp.2.DeleteVenerable),
         (PusherOp.CleanUp, fp.2.CleanUp)] ∧
      (commitRun appPath deploymentInfo fp).ops.countP PusherOp.isDeleteVenerable = 1 ∧
      (commitRun appPath deploymentInfo fp).ops.countP PusherOp.isCleanUp = 1 ∧
      (commitRun appPath deploymentInfo fp).ops.countP PusherOp.isRollback = 0 := by
  simp [commitRun, foundationTask, hlogin, hpush, FoundationRun.ops, List.countP_cons,
    PusherOp.isDeleteVenerable, PusherOp.isCleanUp, PusherOp.isRollback]

/-- The compensation branch on a foundation: its calls, in order; never DeleteVenerable,
CleanUp once, and Rollback once exactly when its task called `Push` for an app that
exists. -/
theorem rollbackRun_calls (appPath : String) (deploymentInfo : DeploymentInfo)
    (fp : String × BoundPusher) :
    (rollbackRun appPath deploymentInfo fp).foundationURL = fp.1 ∧
      (rollbackRun appPath deploymentInfo fp).calls =
        (PusherOp.Login fp.1, fp.2.Login) ::
          (if fp.2.Login = none then
            [(PusherOp.Exists deploymentInfo.AppName, none),
             (PusherOp.Push appPath fp.2.Exists, fp.2.Push)] ++
            (if fp.2.Exists = true then [(PusherOp.Rollback true, fp.2.Rollback)] else [])
           else []) ++
          [(PusherOp.CleanUp, fp.2.CleanUp)] ∧
      (rollbackRun appPath deploymentInfo fp).ops.countP PusherOp.isDeleteVenerable = 0 ∧
      (rollbackRun appPath deploymentInfo fp).ops.countP PusherOp.isCleanUp = 1 ∧
      (rollbackRun appPath deploymentInfo fp).ops.countP PusherOp.isRollback =
        (if fp.2.Login = none ∧ fp.2.Exists = true then 1 else 0) := by
  rcases hlogin : fp.2.Login with _ | err <;> rcases hex : fp.2.Exists <;>
  simp [rollbackRun, foundationTask, hlogin, hex, FoundationRun.ops, List.countP_cons,
    PusherOp.isDeleteVenerable, PusherOp.isCleanUp, PusherOp.isRollback]

/-- The failures reported are those of the failing foundations, in fleet order. -/
theorem failures_name_failing (appPath : String) (deploymentInfo : DeploymentInfo)
    (fleet : List (String × BoundPusher)) :
    (fleet.filterMap (taskFailure appPath deploymentInfo)).map Prod.fst =
      (fleet.filter (fun fp => (taskFailure appPath deploymentInfo fp).isSome)).map
        Prod.fst := by
  induction fleet with
  | nil => rfl
  | cons fp fleet ih =>
    rcases hfail : taskFailure appPath deploymentInfo fp with _ | failure
    · simp [List.filterMap_cons, List.filter_cons, hfail, ih]
    · have hfst : failure.1 = fp.1 := by
        simp only [taskFailure, Option.map_eq_some'] at hfail
        obtain ⟨cause, _, hc⟩ := hfail
        rw [← hc]
      simp [List.filterMap_cons, List.filter_cons, hfail, ih, hfst]

/-- When every `CreatePusher` call succeeds, one Pusher is bound per foundation, in list
order. -/
theorem createPushers_foundations (creator : PusherCreator)
    (deploymentInfo : DeploymentInfo) (foundations : List String) :
    ∀ (n : Nat) (fleet : List (String × BoundPusher)),
      createPushers creator deploymentInfo n foundations = Except.ok fleet →
      fleet.map Prod.fst = foundations := by
  induction foundations with
  | nil =>
    intro n fleet h
    simp only [createPushers, Except.ok.injEq] at h
    rw [← h]
    rfl
  | cons f rest ih =>
    intro n fleet h
    rcases hc : creator n deploymentInfo with err | pusher
    · simp [createPushers, hc] at h
    · rcases hrest : createPushers creator deploymentInfo (n + 1) rest with failed | created
      · simp [createPushers, hc, hrest] at h
      · simp only [createPushers, hc, hrest, Except.ok.injEq] at h
        rw [← h]
        simp [ih (n + 1) created hrest]

/-- C14: on a fleet that passes the precheck and for which every `CreatePusher` call
succeeds, `Orchestrator.Push` commits only when every foundation succeeded.  One Pusher is
bound per foundation of the environment.  If the login and the push succeed on every
foundation, the result is success and the calls on each foundation are exactly Login,
Exists, Push, DeleteVenerable, CleanUp: DeleteVenerable once, CleanUp once, no Rollback.
If a login or a push fails on some foundation, the returned error lists exactly the
failing foundations, each with its cause, and alongside them the rollbacks that failed;
the calls on each foundation are those of its task, then Rollback exactly when the task
had come to push an app that exists, then CleanUp: no DeleteVenerable, CleanUp once. -/
theorem C14_commit_only_when_all_succeed (p : Prechecker) (http : Http)
    (errText : PrecheckError → String) (creator : PusherCreator)
    (createFailed : List (String × BoundPusher) → String → String →
      Option OrchestratorError × List FoundationRun)
    (environment : Environment) (appPath : String) (deploymentInfo : DeploymentInfo)
    (w : World) (fleet : List (String × BoundPusher))
    (hpre : (AssertAllFoundationsUp p http errText environment w).1 = none)
    (hcreate : createPushers creator deploymentInfo 0 environment.Foundations =
      Except.ok fleet) :
    fleet.map Prod.fst = environment.Foundations ∧
    ((∀ fp ∈ fleet, fp.2.Login = none ∧ fp.2.Push = none) →
      (Orchestrator.Push p http errText creator createFailed environment appPath
          deploymentInfo w).1 = none ∧
        List.Forall₂
          (fun fp run => run.foundationURL = fp.1 ∧
            run.calls =
              [(PusherOp.Login fp.1, none), (PusherOp.Exists deploymentInfo.AppName, none),
               (PusherOp.Push appPath fp.2.Exists, none),
               (PusherOp.DeleteVenerable fp.1, fp.2.DeleteVenerable),
               (PusherOp.CleanUp, fp.2.CleanUp)] ∧
            run.ops.countP PusherOp.isDeleteVenerable = 1 ∧
            run.ops.countP PusherOp.isCleanUp = 1 ∧
            run.ops.countP PusherOp.isRollback = 0)
          fleet
          (Orchestrator.Push p http errText creator createFailed environment appPath
            deploymentInfo w).2.2) ∧
    ((∃ fp ∈ fleet, ¬ (fp.2.Login = none ∧ fp.2.Push = none)) →
      (Orchestrator.Push p http errText creator createFailed environment appPath
          deploymentInfo w).1 =
        some (OrchestratorError.PushFailed
          (fleet.filterMap (fun fp =>
            (fp.2.Login <|> fp.2.Push).map (fun cause => (fp.1, cause))))
          (fleet.filterMap (fun fp =>
            if fp.2.Login = none ∧ fp.2.Exists = true
              then fp.2.Rollback.map (fun cause => (fp.1, cause)) else none))) ∧
        (fleet.filterMap (fun fp =>
            (fp.2.Login <|> fp.2.Push).map (fun cause => (fp.1, cause)))).map Prod.fst =
          (fleet.filter
            (fun fp => decide (¬ (fp.2.Login = none ∧ fp.2.Push = none)))).map Prod.fst ∧
        List.Forall₂
          (fun fp run => run.foundationURL = fp.1 ∧
            run.calls =
              (PusherOp.Login fp.1, fp.2.Login) ::
                (if fp.2.Login = none then
                  [(PusherOp.Exists deploymentInfo.AppName, none),
                   (PusherOp.Push appPath fp.2.Exists, fp.2.Push)] ++
                  (if fp.2.Exists = true
                    then [(PusherOp.Rollback true, fp.2.Rollback)] else [])
                 else []) ++
                [(PusherOp.CleanUp, fp.2.CleanUp)] ∧
            run.ops.countP PusherOp.isDeleteVenerable = 0 ∧
            run.ops.countP PusherOp.isCleanUp = 1 ∧
            run.ops.countP PusherOp.isRollback =
              (if fp.2.Login = none ∧ fp.2.Exists = true then 1 else 0))
          fleet
          (Orchestrator.Push p http errText creator createFailed environment appPath
            deploymentInfo w).2.2) := by
  rcases hrun : AssertAllFoundationsUp p http errText environment w with ⟨res, w1⟩
  rw [hrun] at hpre
  simp only at hpre
  subst hpre
  have hfailures : taskFailure appPath deploymentInfo =
      fun fp => (fp.2.Login <|> fp.2.Push).map (fun cause => (fp.1, cause)) :=
    funext (taskFailure_eq appPath deploymentInfo)
  have hrollbacks : rollbackFailure appPath deploymentInfo =
      fun fp => if fp.2.Login = none ∧ fp.2.Exists = true
        then fp.2.Rollback.map (fun cause => (fp.1, cause)) else none :=
    funext (rollbackFailure_eq appPath deploymentInfo)
  simp only [Orchestrator.Push, hrun, hcreate]
  refine ⟨createPushers_foundations creator deploymentInfo environment.Foundations 0 fleet
    hcreate, ?_, ?_⟩
  · intro hall
    have hnone : List.filterMap (taskFailure appPath deploymentInfo) fleet = [] := by
      rw [List.filterMap_eq_nil_iff]
      intro fp hfp
      exact (taskFailure_eq_none_iff appPath deploymentInfo fp).mpr (hall fp hfp)
    simp only [pushFleet, hnone, List.isEmpty_nil, if_true]
    refine ⟨trivial, ?_⟩
    rw [List.forall₂_map_right_iff, List.forall₂_same]
    intro fp hfp
    exact commitRun_calls appPath deploymentInfo fp (hall fp hfp).1 (hall fp hfp).2
  · rintro ⟨fp0, hfp0, hfail0⟩
    have hsome : (List.filterMap (taskFailure appPath deploymentInfo) fleet).isEmpty =
        false := by
      rw [Bool.eq_false_iff]
      intro h
      rw [List.isEmpty_iff, List.filterMap_eq_nil_iff] at h
      exact hfail0 ((taskFailure_eq_none_iff appPath deploymentInfo fp0).mp (h fp0 hfp0))
    simp only [pushFleet, hsome, Bool.false_eq_true, if_false]
    refine ⟨by rw [hfailures, hrollbacks], ?_, ?_⟩
    · rw [← hfailures, failures_name_failing]
      congr 1
      apply List.filter_congr
      intro fp _
      rcases hf : taskFailure appPath deploymentInfo fp with _ | failure
      · have := (taskFailure_eq_none_iff appPath deploymentInfo fp).mp hf
        simp [this]
      · have hne : ¬ (fp.2.Login = none ∧ fp.2.Push = none) := by
          intro hboth
          rw [(taskFailure_eq_none_iff appPath deploymentInfo fp).mpr hboth] at hf
          exact Option.noConfusion hf
        simp [hne]
    · rw [List.forall₂_map_right_iff, List.forall₂_same]
      intro fp _
      exact rollbackRun_calls appPath deploymentInfo fp

/-- Witness of C14: the two end-to-end cases of the design document.  With both foundations
healthy the result is success; when the push on the second foundation fails, the error
names that foundation with its cause and no failed rollback. -/
theorem C14_commit_only_when_all_succeed_witness :
    (Orchestrator.Push samplePrechecker (scriptedHttp []) sampleErrText healthyCreator
        sampleCreateFailed twoFoundations "/tmp/myapp" sampleDeployment World.init).1 = none ∧
    (Orchestrator.Push samplePrechecker (scriptedHttp []) sampleErrText secondFailsCreator
        sampleCreateFailed twoFoundations "/tmp/myapp" sampleDeployment World.init).1 =
      some (OrchestratorError.PushFailed [("https://b.example.com", "push error")] []) :=
  ⟨((C14_commit_only_when_all_succeed samplePrechecker (scriptedHttp []) sampleErrText
      healthyCreator sampleCreateFailed twoFoundations "/tmp/myapp" sampleDeployment
      World.init
      [("https://a.example.com", healthyPusher true),
       ("https://b.example.com", healthyPusher false)]
      rfl rfl).2.1 (by decide)).1,
   ((C14_commit_only_when_all_succeed samplePrechecker (scriptedHttp []) sampleErrText
      secondFailsCreator sampleCreateFailed twoFoundations "/tmp/myapp" sampleDeployment
      World.init
      [("https://a.example.com", healthyPusher true),
       ("https://b.example.com", failingPusher "push error")]
      rfl rfl).2.2
      ⟨("https://b.example.com", failingPusher "push error"), by decide, by decide⟩).1⟩

/-! ## Properties of the extractor -/

/-- Reading a name right after it was written gives what was written; reading another
name is not affected. -/
theorem FsState.read_setFile (st : FsState) (written contents name : String) :
    (st.setFile written contents).read name =
      if written = name then some contents else st.read name := by
  by_cases h : written = name
  · subst h
    simp [FsState.read, FsState.setFile]
  · have h2 : (name == written) = false := by
      rw [beq_eq_false_iff_ne]
      exact fun h3 => h h3.symm
    simp [FsState.read, FsState.setFile, List.lookup_cons, h, h2]

/-- An entry extracted without error leaves every file name as `afterEntry` says. -/
theorem unzipFile_read (faults : FsFaults) (destination : String) (file : ZipFile)
    (st : FsState) (name : String)
    (hok : (Extractor.unzipFile faults destination file st).1 = none) :
    (Extractor.unzipFile faults destination file st).2.read name =
      afterEntry destination name (st.read name) file := by
  rcases h1 : faults.fault st.ops (FsOp.EntryOpen file.Name) with _ | e1
  · by_cases hdir : file.IsDir = true
    · simp [Extractor.unzipFile, FsState.run, FsState.close, h1, hdir, afterEntry,
        FsState.read]
    · rcases h2 : faults.fault (st.ops ++ [FsOp.EntryOpen file.Name])
          (FsOp.MkdirAll (path.Dir (path.Join [destination, file.Name])) 0o755) with _ | e2
      · rcases h3 : faults.fault (st.ops ++ [FsOp.EntryOpen file.Name,
            FsOp.MkdirAll (path.Dir (path.Join [destination, file.Name])) 0o755])
            (FsOp.OpenFile (path.Join [destination, file.Name]) writeCreateTruncate
              file.Mode) with _ | e3
        · rcases h4 : faults.fault (st.ops ++ [FsOp.EntryOpen file.Name,
              FsOp.MkdirAll (path.Dir (path.Join [destination, file.Name])) 0o755,
              FsOp.OpenFile (path.Join [destination, file.Name]) writeCreateTruncate
                file.Mode])
              (FsOp.Copy (path.Join [destination, file.Name])) with _ | e4
          · have hrun : (Extractor.unzipFile faults destination file st).2.files =
                (path.Join [destination, file.Name], file.Contents) ::
                  (path.Join [destination, file.Name], "") :: st.files := by
              simp [Extractor.unzipFile, FsState.run, FsState.close, FsState.setFile,
                FsState.mkdir, h1, h2, h3, h4, hdir]
            have hdirf : file.IsDir = false := by simpa using hdir
            by_cases hname : path.Join [destination, file.Name] = name
            · simp [FsState.read, hrun, afterEntry, hdirf, hname]
            · have h2 : (name == path.Join [destination, file.Name]) = false := by
                rw [beq_eq_false_iff_ne]
                exact fun h3 => hname h3.symm
              simp [FsState.read, hrun, afterEntry, hdirf, hname, List.lookup_cons, h2]
          · simp [Extractor.unzipFile, FsState.run, FsState.mkdir, FsState.setFile,
              h1, h2, h3, h4, hdir] at hok
        · simp [Extractor.unzipFile, FsState.run, FsState.mkdir, h1, h2, h3, hdir] at hok
      · simp [Extractor.unzipFile, FsState.run, h1, h2, hdir] at hok
  · simp [Extractor.unzipFile, FsState.run, h1] at hok

/-- An archive extracted without error leaves every file name as the entries say, taken in
archive order: the last entry saved under a name decides what it holds. -/
theorem unzipFiles_read (faults : FsFaults) (destination : String) (name : String)
    (reader : List ZipFile) :
    ∀ (st : FsState), (Extractor.unzipFiles faults destination reader st).1 = none →
      (Extractor.unzipFiles faults destination reader st).2.read name =
        reader.foldl (afterEntry destination name) (st.read name) := by
  induction reader with
  | nil => intro st _; rfl
  | cons file rest ih =>
    intro st hok
    rcases hfile : Extractor.unzipFile faults destination file st with ⟨_ | err, st1⟩
    · have hread := unzipFile_read faults destination file st name (by rw [hfile])
      rw [hfile] at hread
      simp only [Extractor.unzipFiles, hfile] at hok ⊢
      rw [List.foldl_cons, ih st1 hok, hread]
    · simp [Extractor.unzipFiles, hfile] at hok

/-- Entries that are not saved under a name leave it as it was. -/
theorem foldl_afterEntry_none (destination name : String) (reader : List ZipFile) :
    ∀ (before : Option String),
      (∀ g ∈ reader, ¬ (g.IsDir = false ∧ path.Join [destination, g.Name] = name)) →
      reader.foldl (afterEntry destination name) before = before := by
  induction reader with
  | nil => intro before _; rfl
  | cons g rest ih =>
    intro before h
    have hg := h g (List.mem_cons_self g rest)
    rw [List.foldl_cons, afterEntry, if_neg hg]
    exact ih before (fun g2 hg2 => h g2 (List.mem_cons_of_mem g hg2))

/-- The last entry saved under a name decides what the name holds. -/
theorem foldl_afterEntry_last (destination name : String) (pre post : List ZipFile)
    (file : ZipFile) (before : Option String)
    (hfile : file.IsDir = false ∧ path.Join [destination, file.Name] = name)
    (hpost : ∀ g ∈ post, ¬ (g.IsDir = false ∧ path.Join [destination, g.Name] = name)) :
    (pre ++ file :: post).foldl (afterEntry destination name) before =
      some file.Contents := by
  rw [List.foldl_append, List.foldl_cons]
  have hstep : afterEntry destination name
      (List.foldl (afterEntry destination name) before pre) file = some file.Contents := by
    rw [afterEntry, if_pos hfile]
  rw [hstep]
  exact foldl_afterEntry_none destination name post _ hpost

/-- A successful `Unzip` has extracted the whole archive without error, starting from the
files it found, and has then dealt with the manifest. -/
theorem Unzip_ok (faults : FsFaults) (reader : List ZipFile)
    (source destination manifest : String) (st : FsState)
    (hok : (Extractor.Unzip faults reader source destination manifest st).1 = none) :
    ∃ st4 : FsState, st4.files = st.files ∧
      (Extractor.unzipFiles faults destination reader st4).1 = none ∧
      Extractor.Unzip faults reader source destination manifest st =
        Extractor.writeManifest faults source destination manifest
          (Extractor.unzipFiles faults destination reader st4).2 := by
  rcases h1 : faults.fault st.ops (FsOp.MkdirAll destination 0o755) with _ | e1
  · rcases h2 : faults.fault (st.ops ++ [FsOp.MkdirAll destination 0o755])
        (FsOp.Open source) with _ | e2
    · rcases h3 : faults.fault (st.ops ++ [FsOp.MkdirAll destination 0o755,
          FsOp.Open source]) (FsOp.Stat source) with _ | e3
      · rcases h4 : faults.fault (st.ops ++ [FsOp.MkdirAll destination 0o755,
            FsOp.Open source, FsOp.Stat source]) (FsOp.NewReader source) with _ | e4
        · rcases hloop : Extractor.unzipFiles faults destination reader
              { files := st.files, dirs := st.dirs ++ [destination],
                ops := st.ops ++ [FsOp.MkdirAll destination 0o755, FsOp.Open source,
                  FsOp.Stat source, FsOp.NewReader source],
                log := st.log ++ [("Info", ["extracting application"]),
                  ("Debug", ["parameters for extractor:\n\tsource: %+v\n\tdestination: %+v",
                    source, destination])] } with ⟨_ | err, st5⟩
          · refine ⟨FsState.mk st.files (st.dirs ++ [destination])
                (st.ops ++ [FsOp.MkdirAll destination 0o755, FsOp.Open source,
                  FsOp.Stat source, FsOp.NewReader source])
                (st.log ++ [("Info", ["extracting application"]),
                  ("Debug", ["parameters for extractor:\n\tsource: %+v\n\tdestination: %+v",
                    source, destination])]), rfl, by rw [hloop], ?_⟩
            rw [hloop]
            simp [Extractor.Unzip, FsState.run, FsState.logCall, FsState.mkdir, h1, h2, h3,
              h4, hloop]
          · simp [Extractor.Unzip, FsState.run, FsState.logCall, FsState.mkdir, h1, h2, h3,
              h4, hloop] at hok
        · simp [Extractor.Unzip, FsState.run, FsState.logCall, FsState.mkdir, h1, h2, h3,
            h4] at hok
      · simp [Extractor.Unzip, FsState.run, FsState.logCall, FsState.mkdir, h1, h2, h3] at hok
    · simp [Extractor.Unzip, FsState.run, FsState.logCall, FsState.mkdir, h1, h2] at hok
  · simp [Extractor.Unzip, FsState.run, FsState.logCall, h1] at hok

/-- A manifest that is given and written without error is what `manifest.yml` holds
afterwards. -/
theorem writeManifest_given (faults : FsFaults) (source destination manifest : String)
    (st : FsState) (hgiven : manifest ≠ "")
    (hok : (Extractor.writeManifest faults source destination manifest st).1 = none) :
    (Extractor.writeManifest faults source destination manifest st).2.read
      (path.Join [destination, "manifest.yml"]) = some manifest := by
  rcases h1 : faults.fault st.ops (FsOp.OpenFile (path.Join [destination, "manifest.yml"])
      writeCreateTruncate 0o600) with _ | e1
  · rcases h2 : faults.fault (st.ops ++ [FsOp.OpenFile
        (path.Join [destination, "manifest.yml"]) writeCreateTruncate 0o600])
        (FsOp.Fprint (path.Join [destination, "manifest.yml"])) with _ | e2
    · simp [Extractor.writeManifest, FsState.run, FsState.close, FsState.setFile,
        FsState.logCall, FsState.read, hgiven, h1, h2]
    · simp [Extractor.writeManifest, FsState.run, FsState.setFile, hgiven, h1, h2] at hok
  · simp [Extractor.writeManifest, FsState.run, hgiven, h1] at hok

/-- Without a manifest no file is touched after the extraction. -/
theorem writeManifest_empty (faults : FsFaults) (source destination : String)
    (st : FsState) :
    (Extractor.writeManifest faults source destination "" st).2.files = st.files := by
  simp [Extractor.writeManifest, FsState.run, FsState.close, FsState.logCall]

/-- C15: after a successful `Unzip` with a non-empty manifest,
`path.Join(destination, "manifest.yml")` holds exactly the manifest text, whatever the
archive put there.  After a successful `Unzip` with an empty manifest it holds what the
extraction left: the contents of the last archive entry saved under that name, when there
is one, and what it held before the call (nothing, if it did not exist) when the archive
has no such entry. -/
theorem C15_manifest_in_destination (faults : FsFaults) (reader : List ZipFile)
    (source destination manifest : String) (st : FsState)
    (hok : (Extractor.Unzip faults reader source destination manifest st).1 = none) :
    (manifest ≠ "" →
      (Extractor.Unzip faults reader source destination manifest st).2.read
        (path.Join [destination, "manifest.yml"]) = some manifest) ∧
    (manifest = "" →
      (∀ (pre post : List ZipFile) (file : ZipFile), reader = pre ++ file :: post →
        file.IsDir = false →
        path.Join [destination, file.Name] = path.Join [destination, "manifest.yml"] →
        (∀ g ∈ post, ¬ (g.IsDir = false ∧
          path.Join [destination, g.Name] = path.Join [destination, "manifest.yml"])) →
        (Extractor.Unzip faults reader source destination manifest st).2.read
          (path.Join [destination, "manifest.yml"]) = some file.Contents) ∧
      ((∀ g ∈ reader, ¬ (g.IsDir = false ∧
          path.Join [destination, g.Name] = path.Join [destination, "manifest.yml"])) →
        (Extractor.Unzip faults reader source destination manifest st).2.read
          (path.Join [destination, "manifest.yml"]) =
            st.read (path.Join [destination, "manifest.yml"]))) := by
  obtain ⟨st4, hfiles, hloop, hrun⟩ := Unzip_ok faults reader source destination manifest st hok
  have hread4 : st4.read (path.Join [destination, "manifest.yml"]) =
      st.read (path.Join [destination, "manifest.yml"]) := by
    simp [FsState.read, hfiles]
  refine ⟨?_, ?_⟩
  · intro hgiven
    rw [hrun]
    exact writeManifest_given faults source destination manifest _ hgiven (by rw [← hrun]; exact hok)
  · intro hempty
    subst hempty
    have hleft : (Extractor.Unzip faults reader source destination "" st).2.read
        (path.Join [destination, "manifest.yml"]) =
        reader.foldl (afterEntry destination (path.Join [destination, "manifest.yml"]))
          (st.read (path.Join [destination, "manifest.yml"])) := by
      rw [hrun, FsState.read, writeManifest_empty, ← hread4]
      exact unzipFiles_read faults destination _ reader st4 hloop
    refine ⟨?_, ?_⟩
    · intro pre post file hsplit hfile hname hpost
      rw [hleft, hsplit]
      exact foldl_afterEntry_last destination _ pre post file _ ⟨hfile, hname⟩ hpost
    · intro hnone
      rw [hleft]
      exact foldl_afterEntry_none destination _ reader _ hnone

/-- Witness of C15: an archive with its own `manifest.yml`, extracted once with the
manifest "custom" and once without a manifest. -/
theorem C15_manifest_in_destination_witness :
    (Extractor.Unzip noFaults sampleArchive "/tmp/app.zip" "/tmp/dest" "custom"
        FsState.init).2.read (path.Join ["/tmp/dest", "manifest.yml"]) = some "custom" ∧
    (Extractor.Unzip noFaults sampleArchive "/tmp/app.zip" "/tmp/dest" ""
        FsState.init).2.read (path.Join ["/tmp/dest", "manifest.yml"]) =
      some "applications: []" :=
  ⟨(C15_manifest_in_destination noFaults sampleArchive "/tmp/app.zip" "/tmp/dest" "custom"
      FsState.init (by decide)).1 (by decide),
   ((C15_manifest_in_destination noFaults sampleArchive "/tmp/app.zip" "/tmp/dest" ""
      FsState.init (by decide)).2 rfl).1 []
      [{ Name := "index.html", IsDir := false, Mode := 0o644, Contents := "<html/>" }]
      { Name := "manifest.yml", IsDir := false, Mode := 0o644,
        Contents := "applications: []" }
      rfl rfl (by decide) (by decide)⟩

/-- C16, evaluated where it fails: an archive with the entry "../evil.txt" is extracted to
"/tmp/dest" without error; `path.Join` cleans the saved location to "/tmp/evil.txt", the
file is written there, and "/tmp/dest" is not a prefix of that path. -/
theorem C16_entry_escapes_destination :
    (Extractor.Unzip noFaults escapingArchive "/tmp/app.zip" "/tmp/dest" ""
        FsState.init).1 = none ∧
    path.Join ["/tmp/dest", "../evil.txt"] = "/tmp/evil.txt" ∧
    (Extractor.Unzip noFaults escapingArchive "/tmp/app.zip" "/tmp/dest" ""
        FsState.init).2.read "/tmp/evil.txt" = some "evil" ∧
    FsOp.OpenFile "/tmp/evil.txt" writeCreateTruncate 0o644 ∈
      (Extractor.Unzip noFaults escapingArchive "/tmp/app.zip" "/tmp/dest" ""
        FsState.init).2.ops ∧
    ¬ ("/tmp/dest".data <+: "/tmp/evil.txt".data) := by
  refine ⟨by decide, by decide, by decide, by decide, by decide⟩

end Deployadactyl
